import Mathlib

/-!
# drift-detector: a verification development

A shallow embedding of the drift detection and reporting engine of
`MeowTux/drift-detector` (Go), followed by theorems about it.

Conventions of the embedding:

* Go `string` is `String`; Go `error` is an error message, `nil` error is `none`.
* `interface{}` values (JSON-decoded attributes, `Change.Expected`, `Change.Actual`)
  are the tagged union `Value`; the `nil` interface is `Value.null`.
* A Go `map[string]interface{}` is an association list; the order of the list stands
  for the iteration order the runtime picks for `range`, lookup takes the first hit.
* A function returning `(*T, error)` returns `Except String (Option T)`.
* The cloud SDK clients are fields of `AWSDetector`: functions from a request to a reply.
* Logging and terminal output are not part of the model.
-/

namespace DriftDetector

/-! ## internal/terraform/state_loader.go : the resource model -/

/-- Dynamically typed value held by a Go `interface{}`. -/
inductive Value where
  | null
  | str (s : String)
  | int (n : Int)
  | float (q : Rat)
  | bool (b : Bool)
  | map (kvs : List (String × Value))
  | list (vs : List Value)

/-- Go map index `m[key]` on a `map[string]interface{}`: the zero value `nil` when absent. -/
def mapIndex : List (String × Value) → String → Value
  | [], _ => Value.null
  | (k, v) :: rest, key => if k = key then v else mapIndex rest key

/-- Type assertion `v.(string)` in its two-result form. -/
def Value.asString : Value → Option String
  | Value.str s => some s
  | _ => none

/-- Type assertion `v.(map[string]interface{})`; `none` is the nil map. -/
def Value.asMap : Value → Option (List (String × Value))
  | Value.map kvs => some kvs
  | _ => none

/-- Type assertion `v.([]interface{})`; the nil slice is the empty list. -/
def Value.asSlice : Value → List Value
  | Value.list vs => vs
  | _ => []

/-- Type assertion `v.(bool)` with the failure flag dropped: `false` on failure. -/
def Value.asBool : Value → Bool
  | Value.bool b => b
  | _ => false

/-- The test `v != nil` on an interface value. -/
def Value.isNil : Value → Bool
  | Value.null => true
  | _ => false

/-- Resource instance of the state file. -/
structure Instance where
  Attributes : List (String × Value)

/-- Terraform resource; the field `Type` of the source is `Type_` here. -/
structure Resource where
  Type_ : String
  Name : String
  Provider : String
  Instances : List Instance
  Attributes : List (String × Value)

/-- Terraform state. -/
structure State where
  Version : Int
  Resources : List Resource

/-! ## internal/drift/analyzer.go : changes, drift items, reports -/

/-- Single configuration change. -/
structure Change where
  Field : String
  Expected : Value
  Actual : Value

/-- Drifted resource. -/
structure DriftItem where
  ResourceType : String
  ResourceName : String
  ResourceID : String
  Provider : String
  Severity : String
  Changes : List Change

/-- Drift detection report; `Timestamp` is the reading of the clock. -/
structure Report where
  Timestamp : Nat
  TotalResources : Int
  Drifts : List DriftItem
  Summary : String

/-! ## internal/detectors/aws_detector.go -/

/-- Loop body of `determineSeverity`, as a recursion over the slice. -/
def determineSeverity : List Change → String
  | [] => "medium"
  | change :: rest =>
    if change.Field = "existence" then "critical"
    else if change.Field = "encryption" ∨ change.Field = "public_access" then "high"
    else determineSeverity rest

/-- The test `len(resourceType) > 4 && resourceType[:4] == "aws_"`. -/
def isAWSResource (resourceType : String) : Bool :=
  decide (resourceType.utf8ByteSize > 4) && resourceType.data.take 4 == "aws_".data

/-- EC2 tag as the SDK returns it: both fields are pointers. -/
structure Tag where
  Key : Option String
  Val : Option String

/-- The fields of an SDK EC2 instance that the detector reads. -/
structure EC2Instance where
  InstanceType : String
  Tags : List Tag

/-- SDK reservation. -/
structure Reservation where
  Instances : List EC2Instance

/-- Reply of `DescribeInstances`. -/
structure DescribeInstancesOutput where
  Reservations : List Reservation

/-- The fields of an SDK security group that the detector reads; only the lengths of the
two permission slices are used, so a permission carries no data. -/
structure SecurityGroup where
  IpPermissions : List Unit
  IpPermissionsEgress : List Unit

/-- Reply of `DescribeSecurityGroups`. -/
structure DescribeSecurityGroupsOutput where
  SecurityGroups : List SecurityGroup

/-- Reply of `GetBucketVersioning`. -/
structure GetBucketVersioningOutput where
  Status : String

/-- AWS detector: its regions and the calls of its two SDK clients. A call that returns
`(result, err)` where the result is read only under `err == nil` is an `Except`;
`GetBucketEncryption` has its result pointer and its error tested independently, so it
returns both: whether the result pointer is non-nil, and the error. -/
structure AWSDetector where
  regions : List String
  DescribeInstances : List String → Except String DescribeInstancesOutput
  DescribeSecurityGroups : List String → Except String DescribeSecurityGroupsOutput
  GetBucketVersioning : String → Except String GetBucketVersioningOutput
  GetBucketEncryption : String → Bool × Option String

/-- The comparison `actualVal != expectedVal` of a string with an interface value, negated:
equal exactly when the interface holds that same string. -/
def Value.eqString : Value → String → Bool
  | Value.str t, s => decide (t = s)
  | _, _ => false

/-- The loop filling `actualTags` from `instance.Tags`; a Go `map[string]string` is a
lookup function, a later tag with the same key overwrites an earlier one. -/
def actualTagsLoop : List Tag → (String → Option String) → (String → Option String)
  | [], actualTags => actualTags
  | tag :: rest, actualTags =>
    match tag.Key, tag.Val with
    | some k, some v => actualTagsLoop rest (fun key => if key = k then some v else actualTags key)
    | _, _ => actualTagsLoop rest actualTags

/-- The loop `for key, expectedVal := range expectedTags` of `checkEC2Instance`. -/
def tagsLoop (actualTags : String → Option String) :
    List (String × Value) → List Change → List Change
  | [], changes => changes
  | (key, expectedVal) :: rest, changes =>
    let differs : Bool :=
      match actualTags key with
      | none => true
      | some actualVal => !(expectedVal.eqString actualVal)
    if differs then
      tagsLoop actualTags rest (changes ++ [{ Field := "tags." ++ key,
                                              Expected := expectedVal,
                                              Actual := Value.str ((actualTags key).getD "") }])
    else tagsLoop actualTags rest changes

/-- The drift item of a resource whose live object is gone, as the three checks build it. -/
def existenceItem (resource : Resource) (actual : String) : DriftItem :=
  { ResourceType := resource.Type_,
    ResourceName := resource.Name,
    ResourceID := "",
    Provider := "AWS",
    Severity := "critical",
    Changes := [{ Field := "existence", Expected := Value.str "exists",
                  Actual := Value.str actual }] }

/-- The slice `changes` of `checkEC2Instance` after its two field comparisons. -/
def ec2Changes (resource : Resource) (inst : EC2Instance) : List Change :=
  let changes : List Change := []
  let expectedType := ((mapIndex resource.Attributes "instance_type").asString).getD ""
  let changes :=
    if inst.InstanceType ≠ expectedType then
      changes ++ [{ Field := "instance_type", Expected := Value.str expectedType,
                    Actual := Value.str inst.InstanceType }]
    else changes
  let expectedTags := ((mapIndex resource.Attributes "tags").asMap).getD []
  let actualTags := actualTagsLoop inst.Tags (fun _ => none)
  tagsLoop actualTags expectedTags changes

/-- Field comparison of `checkEC2Instance` once the live instance is in hand. -/
def compareEC2Instance (resource : Resource) (instanceID : String) (inst : EC2Instance) :
    Option DriftItem :=
  let changes := ec2Changes resource inst
  if changes.length > 0 then
    some { ResourceType := resource.Type_,
           ResourceName := resource.Name,
           ResourceID := instanceID,
           Provider := "AWS",
           Severity := determineSeverity changes,
           Changes := changes }
  else none

/-- Model of `AWSDetector.checkEC2Instance`. -/
def checkEC2Instance (d : AWSDetector) (resource : Resource) : Except String (Option DriftItem) :=
  match (mapIndex resource.Attributes "id").asString with
  | none => Except.error "instance ID not found"
  | some instanceID =>
    match d.DescribeInstances [instanceID] with
    | Except.error err => Except.error ("failed to describe instance: " ++ err)
    | Except.ok result =>
      match result.Reservations with
      | [] => Except.ok (some (existenceItem resource "deleted"))
      | reservation :: _ =>
        match reservation.Instances with
        | [] => Except.ok (some (existenceItem resource "deleted"))
        | inst :: _ => Except.ok (compareEC2Instance resource instanceID inst)

/-- The slice `changes` of `checkS3Bucket` after the versioning and encryption checks. -/
def s3Changes (d : AWSDetector) (resource : Resource) (bucketName : String)
    (versioning : GetBucketVersioningOutput) : List Change :=
  let changes : List Change := []
  let changes :=
    match (mapIndex resource.Attributes "versioning").asMap with
    | none => changes
    | some expectedVersioning =>
      let enabled := (mapIndex expectedVersioning "enabled").asBool
      if enabled ∧ versioning.Status ≠ "Enabled" then
        changes ++ [{ Field := "versioning", Expected := Value.str "Enabled",
                      Actual := Value.str versioning.Status }]
      else changes
  let reply := d.GetBucketEncryption bucketName
  let encryption := reply.1
  let err := reply.2
  let expectedEncryption := mapIndex resource.Attributes "server_side_encryption_configuration"
  if !expectedEncryption.isNil && err.isSome then
    changes ++ [{ Field := "encryption", Expected := Value.str "enabled",
                  Actual := Value.str "disabled" }]
  else if expectedEncryption.isNil && encryption then
    changes ++ [{ Field := "encryption", Expected := Value.str "disabled",
                  Actual := Value.str "enabled" }]
  else changes

/-- Field comparison of `checkS3Bucket` once `GetBucketVersioning` has answered. -/
def compareS3Bucket (d : AWSDetector) (resource : Resource) (bucketName : String)
    (versioning : GetBucketVersioningOutput) : Option DriftItem :=
  let changes := s3Changes d resource bucketName versioning
  if changes.length > 0 then
    some { ResourceType := resource.Type_,
           ResourceName := resource.Name,
           ResourceID := bucketName,
           Provider := "AWS",
           Severity := determineSeverity changes,
           Changes := changes }
  else none

/-- Model of `AWSDetector.checkS3Bucket`. -/
def checkS3Bucket (d : AWSDetector) (resource : Resource) : Except String (Option DriftItem) :=
  match (mapIndex resource.Attributes "bucket").asString with
  | none => Except.error "bucket name not found"
  | some bucketName =>
    match d.GetBucketVersioning bucketName with
    | Except.error _ => Except.ok (some (existenceItem resource "deleted or inaccessible"))
    | Except.ok versioning => Except.ok (compareS3Bucket d resource bucketName versioning)

/-- The slice `changes` of `checkSecurityGroup` after the two rule-count comparisons. -/
def sgChanges (resource : Resource) (sg : SecurityGroup) : List Change :=
  let changes : List Change := []
  let expectedIngress := (mapIndex resource.Attributes "ingress").asSlice
  let changes :=
    if sg.IpPermissions.length ≠ expectedIngress.length then
      changes ++ [{ Field := "ingress_rules_count",
                    Expected := Value.int expectedIngress.length,
                    Actual := Value.int sg.IpPermissions.length }]
    else changes
  let expectedEgress := (mapIndex resource.Attributes "egress").asSlice
  if sg.IpPermissionsEgress.length ≠ expectedEgress.length then
    changes ++ [{ Field := "egress_rules_count",
                  Expected := Value.int expectedEgress.length,
                  Actual := Value.int sg.IpPermissionsEgress.length }]
  else changes

/-- Field comparison of `checkSecurityGroup` once the live group is in hand. -/
def compareSecurityGroup (resource : Resource) (sgID : String) (sg : SecurityGroup) :
    Option DriftItem :=
  let changes := sgChanges resource sg
  if changes.length > 0 then
    some { ResourceType := resource.Type_,
           ResourceName := resource.Name,
           ResourceID := sgID,
           Provider := "AWS",
           Severity := "high",
           Changes := changes }
  else none

/-- Model of `AWSDetector.checkSecurityGroup`. -/
def checkSecurityGroup (d : AWSDetector) (resource : Resource) :
    Except String (Option DriftItem) :=
  match (mapIndex resource.Attributes "id").asString with
  | none => Except.error "security group ID not found"
  | some sgID =>
    match d.DescribeSecurityGroups [sgID] with
    | Except.error _ => Except.ok (some (existenceItem resource "deleted"))
    | Except.ok result =>
      match result.SecurityGroups with
      | [] => Except.ok (some (existenceItem resource "deleted"))
      | sg :: _ => Except.ok (compareSecurityGroup resource sgID sg)

/-- What one `case` of the `switch` in `Detect` does with a check result: an error is
logged and the resource skipped, a nil item adds nothing, an item is appended. -/
def appendCheck (drifts : List DriftItem) : Except String (Option DriftItem) → List DriftItem
  | Except.error _ => drifts
  | Except.ok none => drifts
  | Except.ok (some drift) => drifts ++ [drift]

/-- The loop `for _, resource := range state.Resources` of `AWSDetector.Detect`. -/
def detectLoop (d : AWSDetector) : List Resource → List DriftItem → List DriftItem
  | [], drifts => drifts
  | resource :: rest, drifts =>
    if !isAWSResource resource.Type_ then detectLoop d rest drifts
    else if resource.Type_ = "aws_instance" then
      detectLoop d rest (appendCheck drifts (checkEC2Instance d resource))
    else if resource.Type_ = "aws_s3_bucket" then
      detectLoop d rest (appendCheck drifts (checkS3Bucket d resource))
    else if resource.Type_ = "aws_security_group" then
      detectLoop d rest (appendCheck drifts (checkSecurityGroup d resource))
    else detectLoop d rest drifts

/-- Model of `AWSDetector.Detect`: the drift items and the error, which is always nil. -/
def Detect (d : AWSDetector) (state : State) : List DriftItem × Option String :=
  (detectLoop d state.Resources [], none)

/-! ## internal/drift/analyzer.go : the report builder -/

/-- Conversion `rune(count)` of an `int`: truncation to a signed 32-bit integer. -/
def toRune (count : Int) : Int :=
  (count + 2147483648) % 4294967296 - 2147483648

/-- Conversion `string(r)` of a rune: the text holding the one code point `r`, or the
replacement character U+FFFD when `r` is not a valid code point. -/
def runeToString (r : Int) : String :=
  if (0 ≤ r ∧ r < 55296) ∨ (57344 ≤ r ∧ r ≤ 1114111) then
    String.singleton (Char.ofNat r.toNat)
  else "\uFFFD"

/-- Model of `formatCount`. -/
def formatCount (count : Int) (severity : String) : String :=
  if count = 1 then "1 " ++ severity ++ " drift"
  else runeToString (toRune count) ++ " " ++ severity ++ " drifts"

/-- Model of `formatSummary`; `total` is unused, as in the source. -/
def formatSummary (_total critical high medium low : Int) : String :=
  let summary := ""
  let summary := if critical > 0 then summary ++ formatCount critical "critical" else summary
  let summary :=
    if high > 0 then
      (if summary ≠ "" then summary ++ ", " else summary) ++ formatCount high "high"
    else summary
  let summary :=
    if medium > 0 then
      (if summary ≠ "" then summary ++ ", " else summary) ++ formatCount medium "medium"
    else summary
  let summary :=
    if low > 0 then
      (if summary ≠ "" then summary ++ ", " else summary) ++ formatCount low "low"
    else summary
  summary

/-- The four counters of `GenerateReport`. -/
structure SeverityCounts where
  critical : Int
  high : Int
  medium : Int
  low : Int

/-- The loop `for _, d := range drifts` of `GenerateReport` with its `switch`. -/
def countLoop : List DriftItem → SeverityCounts → SeverityCounts
  | [], n => n
  | d :: rest, n =>
    if d.Severity = "critical" then countLoop rest { n with critical := n.critical + 1 }
    else if d.Severity = "high" then countLoop rest { n with high := n.high + 1 }
    else if d.Severity = "medium" then countLoop rest { n with medium := n.medium + 1 }
    else if d.Severity = "low" then countLoop rest { n with low := n.low + 1 }
    else countLoop rest n

/-- Model of `Analyzer.GenerateReport`; `now` is the value of `time.Now()`. -/
def GenerateReport (now : Nat) (drifts : List DriftItem) : Report :=
  let totalResources : Int := (drifts.length : Int) + 100
  let summary :=
    if drifts.length = 0 then
      "No drift detected. Infrastructure is in sync with Terraform state."
    else
      let n := countLoop drifts { critical := 0, high := 0, medium := 0, low := 0 }
      formatSummary drifts.length n.critical n.high n.medium n.low
  { Timestamp := now, TotalResources := totalResources, Drifts := drifts, Summary := summary }

/-! ## cmd/detect.go : notification dispatch -/

/-- The three notification channels. -/
inductive Channel where
  | slack
  | email
  | webhook
  deriving DecidableEq, Repr

/-- The configuration keys `notifications.<channel>.enabled` read by `sendNotifications`. -/
structure NotificationConfig where
  slackEnabled : Bool
  emailEnabled : Bool
  webhookEnabled : Bool

/-- Whether a channel is enabled in a configuration. -/
def NotificationConfig.enabled (cfg : NotificationConfig) : Channel → Bool
  | Channel.slack => cfg.slackEnabled
  | Channel.email => cfg.emailEnabled
  | Channel.webhook => cfg.webhookEnabled

/-- State threaded through `sendNotifications`: the `Send` calls made so far, in order, and
the slice `errors`. -/
structure DispatchState where
  calls : List Channel
  errors : List String

/-- One call `notifier.Send(ctx, report)` and the branch on its error: the call is
recorded, and its error, if any, is appended to `errors`. -/
def callSend (send : Channel → Report → Option String) (report : Report) (ch : Channel)
    (st : DispatchState) : DispatchState :=
  match send ch report with
  | some err => { calls := st.calls ++ [ch], errors := st.errors ++ [err] }
  | none => { calls := st.calls ++ [ch], errors := st.errors }

/-- The three channel blocks of `sendNotifications`, in source order: slack, email,
webhook. Each enabled channel has its `Send` called; `send` gives the outcome of a call. -/
def dispatch (cfg : NotificationConfig) (send : Channel → Report → Option String)
    (report : Report) : DispatchState :=
  let st : DispatchState := { calls := [], errors := [] }
  let st := if cfg.slackEnabled then callSend send report Channel.slack st else st
  let st := if cfg.emailEnabled then callSend send report Channel.email st else st
  let st := if cfg.webhookEnabled then callSend send report Channel.webhook st else st
  st

/-- Model of `sendNotifications`: the state after the three channel blocks (the calls made
and the errors collected) and the returned error, non-nil when `len(errors) > 0`. -/
def sendNotifications (cfg : NotificationConfig) (send : Channel → Report → Option String)
    (report : Report) : DispatchState × Option String :=
  let st := dispatch cfg send report
  if st.errors.length > 0 then (st, some "some notifications failed to send")
  else (st, none)

/-! ## Predicates and functions of the specification -/

/-- Live object reported absent, per recognized type, for a resource that carries its
identifying attribute: `DescribeInstances` succeeds with no reservation or
with a first reservation holding no instance; `GetBucketVersioning`, the bucket query,
fails; `DescribeSecurityGroups` succeeds with no group. -/
def liveAbsent (d : AWSDetector) (resource : Resource) : Bool :=
  if resource.Type_ = "aws_instance" then
    match (mapIndex resource.Attributes "id").asString with
    | none => false
    | some instanceID =>
      match d.DescribeInstances [instanceID] with
      | Except.error _ => false
      | Except.ok result =>
        match result.Reservations with
        | [] => true
        | reservation :: _ => reservation.Instances.isEmpty
  else if resource.Type_ = "aws_s3_bucket" then
    match (mapIndex resource.Attributes "bucket").asString with
    | none => false
    | some bucketName =>
      match d.GetBucketVersioning bucketName with
      | Except.error _ => true
      | Except.ok _ => false
  else if resource.Type_ = "aws_security_group" then
    match (mapIndex resource.Attributes "id").asString with
    | none => false
    | some sgID =>
      match d.DescribeSecurityGroups [sgID] with
      | Except.error _ => false
      | Except.ok result => result.SecurityGroups.isEmpty
  else false

/-- Live-attribute query ending in an error, per recognized type, for a resource that
carries its identifying attribute: the first SDK call of the check fails. -/
def liveQueryFails (d : AWSDetector) (resource : Resource) : Bool :=
  if resource.Type_ = "aws_instance" then
    match (mapIndex resource.Attributes "id").asString with
    | none => false
    | some instanceID =>
      match d.DescribeInstances [instanceID] with
      | Except.error _ => true
      | Except.ok _ => false
  else if resource.Type_ = "aws_s3_bucket" then
    match (mapIndex resource.Attributes "bucket").asString with
    | none => false
    | some bucketName =>
      match d.GetBucketVersioning bucketName with
      | Except.error _ => true
      | Except.ok _ => false
  else if resource.Type_ = "aws_security_group" then
    match (mapIndex resource.Attributes "id").asString with
    | none => false
    | some sgID =>
      match d.DescribeSecurityGroups [sgID] with
      | Except.error _ => true
      | Except.ok _ => false
  else false

/-- The `Actual` text of the existence change each check writes. -/
def absentText (resource : Resource) : String :=
  if resource.Type_ = "aws_s3_bucket" then "deleted or inaccessible" else "deleted"

/-- The check that the `switch` of `Detect` runs for a resource of a recognized type. -/
def checkOfType (d : AWSDetector) (resource : Resource) : Except String (Option DriftItem) :=
  if resource.Type_ = "aws_instance" then checkEC2Instance d resource
  else if resource.Type_ = "aws_s3_bucket" then checkS3Bucket d resource
  else checkSecurityGroup d resource

/-- Number of drift items of a given severity: the per-severity count of the summary. -/
def severityCount (severity : String) (drifts : List DriftItem) : Nat :=
  drifts.countP (fun d => decide (d.Severity = severity))

/-- The clauses a summary is made of, as the specification describes them: one clause for each
severity bucket that is not empty, in the order critical, high, medium, low; the text of
a clause is what `formatCount` renders for the bucket. -/
def summaryClauses (critical high medium low : Nat) : List String :=
  ([(critical, "critical"), (high, "high"), (medium, "medium"), (low, "low")].filter
      (fun p => decide (p.1 ≠ 0))).map
    (fun p => formatCount (p.1 : Int) p.2)

/-! ## Concrete inputs used to exercise the theorems -/

/-- Account in which every queried object is live: one `t3.large` instance tagged
`env=prod`, a bucket with versioning suspended and no encryption configuration, a
security group with two ingress rules and one egress rule. -/
def liveAWS : AWSDetector where
  regions := ["us-east-1"]
  DescribeInstances := fun _ =>
    Except.ok { Reservations := [{ Instances := [{ InstanceType := "t3.large",
                                                   Tags := [{ Key := some "env",
                                                              Val := some "prod" }] }] }] }
  DescribeSecurityGroups := fun _ =>
    Except.ok { SecurityGroups := [{ IpPermissions := [(), ()], IpPermissionsEgress := [()] }] }
  GetBucketVersioning := fun _ => Except.ok { Status := "Suspended" }
  GetBucketEncryption := fun _ => (false, some "ServerSideEncryptionConfigurationNotFoundError")

/-- Account in which every queried object is gone: the describe calls succeed with empty
answers, the bucket query fails with `NoSuchBucket`. -/
def goneAWS : AWSDetector where
  regions := ["us-east-1"]
  DescribeInstances := fun _ => Except.ok { Reservations := [] }
  DescribeSecurityGroups := fun _ => Except.ok { SecurityGroups := [] }
  GetBucketVersioning := fun _ => Except.error "NoSuchBucket"
  GetBucketEncryption := fun _ => (false, some "NoSuchBucket")

/-- Account whose credentials may not read anything: every call ends in an error. -/
def deniedAWS : AWSDetector where
  regions := ["us-east-1"]
  DescribeInstances := fun _ => Except.error "UnauthorizedOperation"
  DescribeSecurityGroups := fun _ => Except.error "UnauthorizedOperation"
  GetBucketVersioning := fun _ => Except.error "AccessDenied"
  GetBucketEncryption := fun _ => (false, some "AccessDenied")

/-- Declared EC2 instance `web`. -/
def webInstance : Resource :=
  { Type_ := "aws_instance", Name := "web", Provider := "aws", Instances := [],
    Attributes := [("id", Value.str "i-0a1"), ("instance_type", Value.str "t2.micro"),
                   ("tags", Value.map [("env", Value.str "prod")])] }

/-- Declared S3 bucket `logs`. -/
def logsBucket : Resource :=
  { Type_ := "aws_s3_bucket", Name := "logs", Provider := "aws", Instances := [],
    Attributes := [("bucket", Value.str "acme-logs"),
                   ("versioning", Value.map [("enabled", Value.bool true)])] }

/-- Declared security group `edge`. -/
def edgeGroup : Resource :=
  { Type_ := "aws_security_group", Name := "edge", Provider := "aws", Instances := [],
    Attributes := [("id", Value.str "sg-0b2"), ("ingress", Value.list [Value.null])] }

/-- Drift item of the given severity on a bucket. -/
def bucketDrift (name severity : String) : DriftItem :=
  { ResourceType := "aws_s3_bucket", ResourceName := name, ResourceID := name,
    Provider := "AWS", Severity := severity,
    Changes := [{ Field := "encryption", Expected := Value.str "enabled",
                  Actual := Value.str "disabled" }] }

/-- The drift item `checkEC2Instance` reports for `webInstance` in `liveAWS`. -/
def webInstanceDrift : DriftItem :=
  { ResourceType := "aws_instance", ResourceName := "web", ResourceID := "i-0a1",
    Provider := "AWS", Severity := "medium",
    Changes := [{ Field := "instance_type", Expected := Value.str "t2.micro",
                  Actual := Value.str "t3.large" }] }

/-- What one resource contributes to the result of `AWSDetector.Detect`, as the
specification describes it: nothing unless its type is one of the three recognized ones;
for those, the drift item its check returns, and nothing when the check returns an error
or finds no mismatch. -/
def resourceDrifts (d : AWSDetector) (resource : Resource) : List DriftItem :=
  if resource.Type_ = "aws_instance" ∨ resource.Type_ = "aws_s3_bucket" ∨
      resource.Type_ = "aws_security_group" then
    match checkOfType d resource with
    | Except.ok (some item) => [item]
    | Except.ok none => []
    | Except.error _ => []
  else []

/-- Account holding one `t2.micro` instance that carries no tag. -/
def untaggedAWS : AWSDetector where
  regions := ["us-east-1"]
  DescribeInstances := fun _ =>
    Except.ok { Reservations := [{ Instances := [{ InstanceType := "t2.micro", Tags := [] }] }] }
  DescribeSecurityGroups := fun _ => Except.ok { SecurityGroups := [] }
  GetBucketVersioning := fun _ => Except.error "NoSuchBucket"
  GetBucketEncryption := fun _ => (false, some "NoSuchBucket")

/-- Declared EC2 instance whose tag `Name` is declared with the empty string as value. -/
def blankTagInstance : Resource :=
  { Type_ := "aws_instance", Name := "batch", Provider := "aws", Instances := [],
    Attributes := [("id", Value.str "i-0c3"), ("instance_type", Value.str "t2.micro"),
                   ("tags", Value.map [("Name", Value.str "")])] }

/-- Declared resource of another provider. -/
def gcpInstance : Resource :=
  { Type_ := "google_compute_instance", Name := "vm", Provider := "google", Instances := [],
    Attributes := [("id", Value.str "vm-1")] }

/-- The drift item `checkEC2Instance` reports for `blankTagInstance` in `untaggedAWS`. -/
def blankTagDrift : DriftItem :=
  { ResourceType := "aws_instance", ResourceName := "batch", ResourceID := "i-0c3",
    Provider := "AWS", Severity := "medium",
    Changes := [{ Field := "tags.Name", Expected := Value.str "", Actual := Value.str "" }] }

/-! ## internal/detectors/detector.go and cmd/detect.go : one detection pass -/

/-- The interface `Detector`: a name and the method `Detect`, which returns the drift
items and the error. -/
structure Detector where
  Name : String
  Detect : State → List DriftItem × Option String

/-- An `AWSDetector` as a value of the interface. -/
def AWSDetector.toDetector (d : AWSDetector) : Detector :=
  { Name := "AWS", Detect := fun state => DriftDetector.Detect d state }

/-- What `initializeDetectors` reads: the keys `providers.<provider>.enabled`, the flag
`--provider`, and the outcome of each constructor call. -/
structure ProviderSetup where
  awsEnabled : Bool
  gcpEnabled : Bool
  azureEnabled : Bool
  provider : String
  newAWS : Except String Detector
  newGCP : Except String Detector
  newAzure : Except String Detector

/-- One block of `initializeDetectors`: a constructor that fails is logged and adds
nothing, a detector that was built is appended. -/
def appendDetector (detectorList : List Detector) : Except String Detector → List Detector
  | Except.error _ => detectorList
  | Except.ok det => detectorList ++ [det]

/-- Model of `initializeDetectors`. -/
def initializeDetectors (p : ProviderSetup) : List Detector :=
  let detectorList : List Detector := []
  let detectorList :=
    if p.awsEnabled ∧ (p.provider = "" ∨ p.provider = "aws") then
      appendDetector detectorList p.newAWS
    else detectorList
  let detectorList :=
    if p.gcpEnabled ∧ (p.provider = "" ∨ p.provider = "gcp") then
      appendDetector detectorList p.newGCP
    else detectorList
  let detectorList :=
    if p.azureEnabled ∧ (p.provider = "" ∨ p.provider = "azure") then
      appendDetector detectorList p.newAzure
    else detectorList
  detectorList

/-- The loop `for _, detector := range driftDetectors` of `runSingleDetection`: a detector
whose `Detect` returns an error is logged and skipped, the items of the others are
appended to `allDrifts`. -/
def detectorsLoop (state : State) : List Detector → List DriftItem → List DriftItem
  | [], allDrifts => allDrifts
  | detector :: rest, allDrifts =>
    match detector.Detect state with
    | (_, some _) => detectorsLoop state rest allDrifts
    | (drifts, none) => detectorsLoop state rest (allDrifts ++ drifts)

/-- Everything `runSingleDetection` reads from outside: the outcome of
`stateLoader.LoadState`, the provider set-up, the flags `--dry-run` and `--fail-on-drift`,
the notification configuration, the outcome of each channel's `Send`, and the clock. -/
structure PassEnv where
  loadState : Except String State
  providers : ProviderSetup
  dryRun : Bool
  failOnDrift : Bool
  notifications : NotificationConfig
  send : Channel → Report → Option String
  now : Nat

/-- What a pass leaves behind: the returned error, the report it built (none when the
pass returned before building one), and the result of the call of `sendNotifications`
(none when the call was not made). -/
structure PassResult where
  err : Option String
  report : Option Report
  notified : Option (DispatchState × Option String)

/-- Model of `runSingleDetection`. -/
def runSingleDetection (env : PassEnv) : PassResult :=
  match env.loadState with
  | Except.error err =>
    { err := some ("failed to load Terraform state: " ++ err), report := none,
      notified := none }
  | Except.ok state =>
    let driftDetectors := initializeDetectors env.providers
    if driftDetectors.length = 0 then
      { err := some "no cloud providers enabled in configuration", report := none,
        notified := none }
    else
      let allDrifts := detectorsLoop state driftDetectors []
      let report := GenerateReport env.now allDrifts
      let notified :=
        if !env.dryRun && decide (allDrifts.length > 0) then
          some (sendNotifications env.notifications env.send report)
        else none
      if env.failOnDrift && decide (allDrifts.length > 0) then
        { err := some ("drift detected in " ++ toString allDrifts.length ++ " resources"),
          report := some report, notified := notified }
      else { err := none, report := some report, notified := notified }

/-- The drift items a pass found: the `allDrifts` of `runSingleDetection`, empty when the
pass returned before running any detector. -/
def foundDrifts (env : PassEnv) : List DriftItem :=
  match env.loadState with
  | Except.error _ => []
  | Except.ok state => detectorsLoop state (initializeDetectors env.providers) []

/-- The `Send` calls made during a pass. -/
def PassResult.sendCalls (r : PassResult) : List Channel :=
  match r.notified with
  | some (st, _) => st.calls
  | none => []

/-- What one detector contributes to the drifts of a pass, as the specification describes
it: its drift items when `Detect` returned no error, nothing otherwise. -/
def detectorDrifts (state : State) (detector : Detector) : List DriftItem :=
  match detector.Detect state with
  | (drifts, none) => drifts
  | (_, some _) => []

/-- Detector whose `Detect` always fails. -/
def failingDetector : Detector :=
  { Name := "GCP", Detect := fun _ => ([], some "permission denied") }

/-- Pass over a state that declares the instance `web`, with AWS enabled and found live
with a different type, a second detector that fails, slack and webhook enabled, and a
slack `Send` that fails. -/
def driftPass : PassEnv :=
  { loadState := Except.ok { Version := 4, Resources := [webInstance] },
    providers := { awsEnabled := true, gcpEnabled := true, azureEnabled := false,
                   provider := "", newAWS := Except.ok liveAWS.toDetector,
                   newGCP := Except.ok failingDetector,
                   newAzure := Except.error "Azure subscription ID is required" },
    dryRun := false, failOnDrift := false,
    notifications := { slackEnabled := true, emailEnabled := false, webhookEnabled := true },
    send := fun ch _ => if ch = Channel.slack then some "Slack API returned status 500"
                        else none,
    now := 1700000000 }

/-! ## cmd/detect.go : continuous mode

`runContinuousDetection` as a transition system. The state holds where control is, whether
`ctx.Done()` is closed, whether the ticker channel (capacity one) holds a tick, the passes
run so far and the value returned. The environment delivers the cancellation signal and
the ticks; the program runs the first pass, and at the `select` takes either case that
can proceed. A pass is one step: a signal that arrives while a pass runs is an
environment step after it. -/

/-- Where the control of `runContinuousDetection` is. -/
inductive LoopPhase where
  | entry
  | selecting
  | returned
  deriving DecidableEq, Repr

/-- One call of `runSingleDetection(ctx)` made by the loop: whether `ctx` was already
cancelled when the call was made, and the error the call returned. -/
structure PassRecord where
  ctxDone : Bool
  err : Option String
  deriving DecidableEq, Repr

/-- State of `runContinuousDetection`. -/
structure LoopState where
  phase : LoopPhase
  ctxDone : Bool
  tickPending : Bool
  passes : List PassRecord
  result : Option (Option String)
  deriving DecidableEq, Repr

/-- Steps of the environment (`cancel`, `tick`) and of the program: the first pass, the
`select` taking `<-ctx.Done()`, the `select` taking `<-ticker.C` and running a pass. The
passes carry the error `runSingleDetection` returns. -/
inductive LoopEvent where
  | cancel
  | tick
  | firstPass (err : Option String)
  | selectDone
  | selectTick (err : Option String)
  deriving DecidableEq, Repr

/-- State on entry of `runContinuousDetection`, the ticker just created. -/
def loopInit : LoopState :=
  { phase := LoopPhase.entry, ctxDone := false, tickPending := false, passes := [],
    result := none }

/-- One step of `runContinuousDetection`; `none` when the step cannot be taken. The first
pass runs on entry without a look at `ctx`; the error of a pass is logged and dropped;
`select` can take `<-ctx.Done()` when the context is cancelled, and then the function
returns nil; it can take `<-ticker.C` when a tick is pending; the deferred `ticker.Stop()`
ends the ticks once the function has returned. -/
def loopStep (s : LoopState) : LoopEvent → Option LoopState
  | LoopEvent.cancel => some { s with ctxDone := true }
  | LoopEvent.tick =>
    if s.phase = LoopPhase.returned then some s else some { s with tickPending := true }
  | LoopEvent.firstPass err =>
    if s.phase = LoopPhase.entry then
      some { s with phase := LoopPhase.selecting,
                    passes := s.passes ++ [{ ctxDone := s.ctxDone, err := err }] }
    else none
  | LoopEvent.selectDone =>
    if s.phase = LoopPhase.selecting ∧ s.ctxDone = true then
      some { s with phase := LoopPhase.returned, result := some none }
    else none
  | LoopEvent.selectTick err =>
    if s.phase = LoopPhase.selecting ∧ s.tickPending = true then
      some { s with tickPending := false,
                    passes := s.passes ++ [{ ctxDone := s.ctxDone, err := err }] }
    else none

/-- A run of `runContinuousDetection` along a sequence of steps. -/
def loopRun : LoopState → List LoopEvent → Option LoopState
  | s, [] => some s
  | s, e :: es =>
    match loopStep s e with
    | none => none
    | some next => loopRun next es

/-- Number of ticks the ticker delivered in a sequence of steps. -/
def tickCount (es : List LoopEvent) : Nat :=
  es.countP (fun e => decide (e = LoopEvent.tick))

/-- Number of times the `select` took the ticker case in a sequence of steps. -/
def selectTickCount (es : List LoopEvent) : Nat :=
  es.countP (fun e => match e with
    | LoopEvent.selectTick _ => true
    | _ => false)

/-- Number of passes that were started with the cancellation signal already delivered. -/
def lateStarts (s : LoopState) : Nat :=
  s.passes.countP (fun p => p.ctxDone)

/-- Invariant of the runs of `runContinuousDetection` from `loopInit`. -/
def LoopInvariant (es : List LoopEvent) (s : LoopState) : Prop :=
  s.passes.length = (if s.phase = LoopPhase.entry then 0 else 1) + selectTickCount es ∧
    selectTickCount es + (if s.tickPending = true then 1 else 0) ≤ tickCount es ∧
    (s.phase = LoopPhase.returned ↔ LoopEvent.selectDone ∈ es) ∧
    (s.phase = LoopPhase.returned ∧ s.ctxDone = true ∧ s.result = some none ∨
      s.phase ≠ LoopPhase.returned ∧ s.result = none)


/-- One run of continuous mode: the first pass fails, a tick comes and its pass succeeds,
then the cancellation signal is delivered and the loop returns. -/
def sampleRun : List LoopEvent :=
  [LoopEvent.firstPass (some "failed to load Terraform state: open terraform.tfstate"),
   LoopEvent.tick, LoopEvent.selectTick none, LoopEvent.cancel, LoopEvent.selectDone]

/-- The state `sampleRun` ends in. -/
def sampleRunEnd : LoopState :=
  { phase := LoopPhase.returned, ctxDone := true, tickPending := false,
    passes := [{ ctxDone := false,
                 err := some "failed to load Terraform state: open terraform.tfstate" },
               { ctxDone := false, err := none }],
    result := some none }

/-! ## internal/notifiers/slack.go : the Slack message

The message is built as nested `map[string]interface{}` values in the source; here it is a
record with one field per key. The verb `%v` of `fmt`, applied to an interface value, is
the parameter `fmtV`; the verb `%d` is the decimal numeral. -/

/-- An entry of the key `fields` of the attachment. -/
structure SlackField where
  title : String
  value : String
  short : Bool

/-- The attachment of the Slack message. -/
structure SlackAttachment where
  color : String
  title : String
  text : String
  fields : List SlackField
  footer : String
  footer_icon : String
  ts : Nat

/-- The Slack message. -/
structure SlackMessage where
  text : String
  attachments : List SlackAttachment

/-- The inner loop `for _, change := range d.Changes` of `buildMessage`, appending one
line per change to `driftDetails`. -/
def changeLinesLoop (fmtV : Value → String) : List Change → String → String
  | [], driftDetails => driftDetails
  | change :: rest, driftDetails =>
    changeLinesLoop fmtV rest
      (driftDetails ++ ("  - " ++ change.Field ++ ": `" ++ fmtV change.Expected ++ "` → `" ++
        fmtV change.Actual ++ "`\n"))

/-- The loop `for i, d := range report.Drifts` of `buildMessage`; `total` is
`len(report.Drifts)` and `i` the index of the head of the list. -/
def driftDetailsLoop (fmtV : Value → String) (total : Nat) :
    Nat → List DriftItem → String → String
  | _, [], driftDetails => driftDetails
  | i, d :: rest, driftDetails =>
    if i ≥ 5 then
      driftDetails ++ ("\n... and " ++ toString ((total : Int) - 5) ++ " more")
    else
      driftDetailsLoop fmtV total (i + 1) rest
        (changeLinesLoop fmtV d.Changes
          (driftDetails ++ ("\n• *" ++ d.ResourceName ++ "* (" ++ d.ResourceType ++ ")\n")))

/-- Model of `SlackNotifier.buildMessage`. -/
def buildMessage (fmtV : Value → String) (report : Report) : SlackMessage :=
  let color := if report.Drifts.length = 0 then "good" else "danger"
  let fields : List SlackField :=
    [{ title := "Total Resources", value := toString report.TotalResources, short := true },
     { title := "Drifted Resources", value := toString report.Drifts.length, short := true }]
  let driftDetails := driftDetailsLoop fmtV report.Drifts.length 0 report.Drifts ""
  let attachment : SlackAttachment :=
    { color := color,
      title := "🔍 Infrastructure Drift Detection Report",
      text := driftDetails,
      fields := fields,
      footer := "Drift Detector",
      footer_icon :=
        "https://raw.githubusercontent.com/MeowTux/drift-detector/main/assets/icon.png",
      ts := report.Timestamp }
  { text := "Infrastructure Drift Detected", attachments := [attachment] }

/-- The detail text of a message: the key `text` of its attachment. -/
def SlackMessage.detail (m : SlackMessage) : String :=
  String.join (m.attachments.map (fun a => a.text))

/-- The rendering of one change in the detail text. -/
def renderChange (fmtV : Value → String) (change : Change) : String :=
  "  - " ++ change.Field ++ ": `" ++ fmtV change.Expected ++ "` → `" ++
    fmtV change.Actual ++ "`\n"

/-- The rendering of one drift item in the detail text: its heading, then all of its
changes in order. -/
def renderDrift (fmtV : Value → String) (d : DriftItem) : String :=
  ("\n• *" ++ d.ResourceName ++ "* (" ++ d.ResourceType ++ ")\n") ++
    String.join (d.Changes.map (renderChange fmtV))

/-- The marker that stands for the drift items beyond the fifth, for a report of `n`. -/
def moreMarker (n : Nat) : String :=
  "\n... and " ++ toString (n - 5) ++ " more"

/-- A rendering of interface values for the examples: strings as they are. -/
def plainText : Value → String
  | Value.str s => s
  | Value.int n => toString n
  | Value.bool b => toString b
  | _ => "<nil>"

/-- Report of six drifted buckets. -/
def sixDriftReport : Report :=
  GenerateReport 1700000000
    [bucketDrift "a" "high", bucketDrift "b" "high", bucketDrift "c" "high",
     bucketDrift "d" "high", bucketDrift "e" "high", bucketDrift "f" "high"]

/-! ## internal/terraform/state_loader.go : loading the state -/

/-- Model of `getString`. -/
def getString (m : List (String × Value)) (key : String) : String :=
  match (mapIndex m key).asString with
  | some val => val
  | none => ""

/-- Conversion `int(version)` of a `float64`: truncation toward zero when the result fits
a 64-bit `int`. Outside that range Go leaves the result to the implementation; the value
here is the one amd64 gives, the least 64-bit integer. -/
def floatToInt (q : Rat) : Int :=
  let truncated := Int.tdiv q.num (q.den : Int)
  if -9223372036854775808 ≤ truncated ∧ truncated ≤ 9223372036854775807 then truncated
  else -9223372036854775808

/-- The loop `for _, inst := range instances` of `LoadState`: an instance that is not an
object, or has no object under `attributes`, is skipped; the attributes of the last
instance that has them become the attributes of the resource. -/
def instancesLoop : List Value → Resource → Resource
  | [], resource => resource
  | inst :: rest, resource =>
    match inst.asMap with
    | none => instancesLoop rest resource
    | some instMap =>
      match (mapIndex instMap "attributes").asMap with
      | some attrs =>
        instancesLoop rest
          { resource with Attributes := attrs,
                          Instances := resource.Instances ++ [{ Attributes := attrs }] }
      | none => instancesLoop rest resource

/-- The body of the loop over `resources` for an entry that is an object: the resource is
built with `getString` for its three names, then its instances are read. -/
def resourceOfMap (resourceMap : List (String × Value)) : Resource :=
  let resource : Resource :=
    { Type_ := getString resourceMap "type",
      Name := getString resourceMap "name",
      Provider := getString resourceMap "provider",
      Instances := [],
      Attributes := [] }
  match mapIndex resourceMap "instances" with
  | Value.list instances =>
    if instances.length > 0 then instancesLoop instances resource else resource
  | _ => resource

/-- The loop `for _, r := range resources` of `LoadState`: an entry that is not an object
is skipped, every other entry is appended. -/
def resourcesLoop : List Value → State → State
  | [], state => state
  | r :: rest, state =>
    match r.asMap with
    | none => resourcesLoop rest state
    | some resourceMap =>
      resourcesLoop rest { state with Resources := state.Resources ++ [resourceOfMap resourceMap] }

/-- The part of `LoadState` that follows `json.Unmarshal`: from the parsed document to the
state. A document without an array under `resources` gives the state without resources. -/
def loadParsed (rawState : List (String × Value)) : State :=
  let state : State := { Version := 0, Resources := [] }
  let state :=
    match mapIndex rawState "version" with
    | Value.float version => { state with Version := floatToInt version }
    | _ => state
  match mapIndex rawState "resources" with
  | Value.list resources => resourcesLoop resources state
  | _ => state

/-- Model of `StateLoader.LoadState`: `readFile` is the outcome of `os.ReadFile` on the
state path and `unmarshal` the outcome of `json.Unmarshal` on the bytes read. -/
def LoadState (readFile : Except String String)
    (unmarshal : String → Except String (List (String × Value))) : Except String State :=
  match readFile with
  | Except.error err => Except.error ("failed to read state file: " ++ err)
  | Except.ok data =>
    match unmarshal data with
    | Except.error err => Except.error ("failed to parse state file: " ++ err)
    | Except.ok rawState => Except.ok (loadParsed rawState)

/-- Parsed state document whose `resources` array holds a string, an object without a
`type` field, and a well-formed bucket. -/
def looseDocument : List (String × Value) :=
  [("version", Value.float 4),
   ("resources", Value.list
      [Value.str "not an object",
       Value.map [("name", Value.str "orphan")],
       Value.map [("type", Value.str "aws_s3_bucket"), ("name", Value.str "logs"),
                  ("provider", Value.str "aws"),
                  ("instances", Value.list
                     [Value.map [("attributes",
                        Value.map [("bucket", Value.str "acme-logs")])]])]])]

/-! ## The JSON wire format of a report (internal/drift/analyzer.go, struct tags)

`json.Marshal(report)` in `WebhookNotifier.Send` and the `json` tags of `Report`,
`DriftItem` and `Change` fix the wire format. A JSON document is modelled as a tree, not
as text; an object keeps its members in a list. Marshalling an interface value writes a
Go `int` and a `float64` alike as a JSON number; unmarshalling into an interface value
reads every JSON number as a `float64`. A nil slice is written `null`, and `null` or a
missing member leaves the zero value in a field. The text of a `time.Time` is produced
and read back by the functions `formatTime` and `parseTime`, which are parameters. -/

/-- JSON document. -/
inductive Json where
  | null
  | bool (b : Bool)
  | number (q : Rat)
  | string (s : String)
  | array (items : List Json)
  | object (members : List (String × Json))

mutual
/-- Marshalling of an interface value. -/
def Value.toJson : Value → Json
  | Value.null => Json.null
  | Value.str s => Json.string s
  | Value.int n => Json.number (n : Rat)
  | Value.float q => Json.number q
  | Value.bool b => Json.bool b
  | Value.map kvs => Json.object (Value.membersToJson kvs)
  | Value.list vs => Json.array (Value.itemsToJson vs)
/-- Marshalling of the members of a map. -/
def Value.membersToJson : List (String × Value) → List (String × Json)
  | [] => []
  | (k, v) :: rest => (k, Value.toJson v) :: Value.membersToJson rest
/-- Marshalling of the items of a slice. -/
def Value.itemsToJson : List Value → List Json
  | [] => []
  | v :: rest => Value.toJson v :: Value.itemsToJson rest
end

mutual
/-- Unmarshalling into an interface value: every number becomes a `float64`. -/
def Json.toValue : Json → Value
  | Json.null => Value.null
  | Json.bool b => Value.bool b
  | Json.number q => Value.float q
  | Json.string s => Value.str s
  | Json.array items => Value.list (Json.itemsToValue items)
  | Json.object members => Value.map (Json.membersToValue members)
/-- Unmarshalling of the members of an object. -/
def Json.membersToValue : List (String × Json) → List (String × Value)
  | [] => []
  | (k, j) :: rest => (k, Json.toValue j) :: Json.membersToValue rest
/-- Unmarshalling of the items of an array. -/
def Json.itemsToValue : List Json → List Value
  | [] => []
  | j :: rest => Json.toValue j :: Json.itemsToValue rest
end

mutual
/-- An interface value after a round trip through JSON: the same value with every Go
`int` turned into the `float64` of the same number. -/
def Value.afterRoundTrip : Value → Value
  | Value.null => Value.null
  | Value.str s => Value.str s
  | Value.int n => Value.float (n : Rat)
  | Value.float q => Value.float q
  | Value.bool b => Value.bool b
  | Value.map kvs => Value.map (Value.membersAfterRoundTrip kvs)
  | Value.list vs => Value.list (Value.itemsAfterRoundTrip vs)
/-- Members of a map after a round trip. -/
def Value.membersAfterRoundTrip : List (String × Value) → List (String × Value)
  | [] => []
  | (k, v) :: rest => (k, Value.afterRoundTrip v) :: Value.membersAfterRoundTrip rest
/-- Items of a slice after a round trip. -/
def Value.itemsAfterRoundTrip : List Value → List Value
  | [] => []
  | v :: rest => Value.afterRoundTrip v :: Value.itemsAfterRoundTrip rest
end

mutual
/-- Whether an interface value holds no Go `int` at any depth. -/
def Value.intFree : Value → Bool
  | Value.int _ => false
  | Value.map kvs => Value.membersIntFree kvs
  | Value.list vs => Value.itemsIntFree vs
  | _ => true
/-- Whether the members of a map hold no Go `int`. -/
def Value.membersIntFree : List (String × Value) → Bool
  | [] => true
  | (_, v) :: rest => Value.intFree v && Value.membersIntFree rest
/-- Whether the items of a slice hold no Go `int`. -/
def Value.itemsIntFree : List Value → Bool
  | [] => true
  | v :: rest => Value.intFree v && Value.itemsIntFree rest
end

/-- The member of a JSON object under a key, `null` when there is none. -/
def Json.member : List (String × Json) → String → Json
  | [], _ => Json.null
  | (k, j) :: rest, key => if k = key then j else Json.member rest key

/-- Unmarshalling into a `string` field: `null` leaves the zero value, anything but a
string is a type error. -/
def Json.asString : Json → Option String
  | Json.string s => some s
  | Json.null => some ""
  | _ => none

/-- Unmarshalling into an `int` field: `null` leaves the zero value, a number must be
integral. -/
def Json.asInt : Json → Option Int
  | Json.number q => if q.den = 1 then some q.num else none
  | Json.null => some 0
  | _ => none

/-- Marshalling of a slice: `null` for the nil slice. -/
def sliceToJson {α : Type} (f : α → Json) : List α → Json
  | [] => Json.null
  | x :: rest => Json.array ((x :: rest).map f)

/-- Unmarshalling of the items of an array, failing when one item fails. -/
def itemsOfJson {α : Type} (f : Json → Option α) : List Json → Option (List α)
  | [] => some []
  | j :: rest =>
    match f j, itemsOfJson f rest with
    | some x, some xs => some (x :: xs)
    | _, _ => none

/-- Unmarshalling into a slice field. -/
def sliceOfJson {α : Type} (f : Json → Option α) : Json → Option (List α)
  | Json.array items => itemsOfJson f items
  | Json.null => some []
  | _ => none

/-- Marshalling of a `Change`. -/
def Change.toJson (c : Change) : Json :=
  Json.object [("field", Json.string c.Field), ("expected", c.Expected.toJson),
               ("actual", c.Actual.toJson)]

/-- Unmarshalling into a `Change`. -/
def Change.ofJson : Json → Option Change
  | Json.object members =>
    match (Json.member members "field").asString with
    | some field =>
      some { Field := field,
             Expected := (Json.member members "expected").toValue,
             Actual := (Json.member members "actual").toValue }
    | none => none
  | Json.null => some { Field := "", Expected := Value.null, Actual := Value.null }
  | _ => none

/-- Marshalling of a `DriftItem`; `resource_id` is tagged `omitempty`. -/
def DriftItem.toJson (d : DriftItem) : Json :=
  Json.object
    ([("resource_type", Json.string d.ResourceType),
      ("resource_name", Json.string d.ResourceName)] ++
     (if d.ResourceID = "" then [] else [("resource_id", Json.string d.ResourceID)]) ++
     [("provider", Json.string d.Provider),
      ("severity", Json.string d.Severity),
      ("changes", sliceToJson Change.toJson d.Changes)])

/-- Unmarshalling into a `DriftItem`. -/
def DriftItem.ofJson : Json → Option DriftItem
  | Json.object members =>
    match (Json.member members "resource_type").asString,
          (Json.member members "resource_name").asString,
          (Json.member members "resource_id").asString,
          (Json.member members "provider").asString,
          (Json.member members "severity").asString,
          sliceOfJson Change.ofJson (Json.member members "changes") with
    | some resourceType, some resourceName, some resourceID, some provider, some severity,
      some changes =>
      some { ResourceType := resourceType, ResourceName := resourceName,
             ResourceID := resourceID, Provider := provider, Severity := severity,
             Changes := changes }
    | _, _, _, _, _, _ => none
  | _ => none

/-- Marshalling of a `Report`. -/
def Report.toJson (formatTime : Nat → String) (r : Report) : Json :=
  Json.object [("timestamp", Json.string (formatTime r.Timestamp)),
               ("total_resources", Json.number (r.TotalResources : Rat)),
               ("drifts", sliceToJson DriftItem.toJson r.Drifts),
               ("summary", Json.string r.Summary)]

/-- Unmarshalling into a `Report`. -/
def Report.ofJson (parseTime : String → Option Nat) : Json → Option Report
  | Json.object members =>
    match Json.member members "timestamp" with
    | Json.string text =>
      match parseTime text,
            (Json.member members "total_resources").asInt,
            sliceOfJson DriftItem.ofJson (Json.member members "drifts"),
            (Json.member members "summary").asString with
      | some timestamp, some totalResources, some drifts, some summary =>
        some { Timestamp := timestamp, TotalResources := totalResources, Drifts := drifts,
               Summary := summary }
      | _, _, _, _ => none
    | _ => none
  | _ => none

/-- A `Change` after a round trip: its two values after a round trip. -/
def Change.afterRoundTrip (c : Change) : Change :=
  { c with Expected := c.Expected.afterRoundTrip, Actual := c.Actual.afterRoundTrip }

/-- A `DriftItem` after a round trip. -/
def DriftItem.afterRoundTrip (d : DriftItem) : DriftItem :=
  { d with Changes := d.Changes.map Change.afterRoundTrip }

/-- A `Report` after a round trip. -/
def Report.afterRoundTrip (r : Report) : Report :=
  { r with Drifts := r.Drifts.map DriftItem.afterRoundTrip }

/-- Whether no change of a report holds a Go `int` as expected or actual value. -/
def Report.intFree (r : Report) : Bool :=
  r.Drifts.all (fun d => d.Changes.all (fun c => c.Expected.intFree && c.Actual.intFree))

/-- Stand-in for the text of a time: as many strokes as the reading of the clock. -/
def strokes (t : Nat) : String :=
  String.mk (List.replicate t '|')

/-- Reading back the stand-in text of a time. -/
def countStrokes (text : String) : Option Nat :=
  some text.length

/-- The report of a pass over `edgeGroup` in `liveAWS`, at clock reading 3. -/
def edgeGroupReport : Report :=
  GenerateReport 3 (Detect liveAWS { Version := 4, Resources := [edgeGroup] }).1

/-! ## internal/detectors/gcp_detector.go -/

/-- GCP detector. -/
structure GCPDetector where
  projectID : String

/-- Model of `NewGCPDetector`. -/
def NewGCPDetector (projectID : String) : Except String GCPDetector :=
  if projectID = "" then Except.error "GCP project ID is required"
  else Except.ok { projectID := projectID }

/-- The test `len(resourceType) > 7 && resourceType[:7] == "google_"`. -/
def isGCPResource (resourceType : String) : Bool :=
  decide (resourceType.utf8ByteSize > 7) && resourceType.data.take 7 == "google_".data

/-- Model of `GCPDetector.checkComputeInstance`: it logs and returns `nil, nil`. -/
def GCPDetector.checkComputeInstance (_d : GCPDetector) (_resource : Resource) :
    Except String (Option DriftItem) :=
  Except.ok none

/-- Model of `GCPDetector.checkStorageBucket`: it logs and returns `nil, nil`. -/
def GCPDetector.checkStorageBucket (_d : GCPDetector) (_resource : Resource) :
    Except String (Option DriftItem) :=
  Except.ok none

/-- The loop `for _, resource := range state.Resources` of `GCPDetector.Detect`. -/
def GCPDetector.detectLoop (d : GCPDetector) : List Resource → List DriftItem → List DriftItem
  | [], drifts => drifts
  | resource :: rest, drifts =>
    if !isGCPResource resource.Type_ then GCPDetector.detectLoop d rest drifts
    else if resource.Type_ = "google_compute_instance" then
      GCPDetector.detectLoop d rest (appendCheck drifts (d.checkComputeInstance resource))
    else if resource.Type_ = "google_storage_bucket" then
      GCPDetector.detectLoop d rest (appendCheck drifts (d.checkStorageBucket resource))
    else GCPDetector.detectLoop d rest drifts

/-- Model of `GCPDetector.Detect`: the drift items and the error. -/
def GCPDetector.Detect (d : GCPDetector) (state : State) : List DriftItem × Option String :=
  (GCPDetector.detectLoop d state.Resources [], none)

/-- A `GCPDetector` as a value of the interface. -/
def GCPDetector.toDetector (d : GCPDetector) : Detector :=
  { Name := "GCP", Detect := fun state => GCPDetector.Detect d state }

/-! ## internal/detectors/azure_detector.go -/

/-- Azure detector. -/
structure AzureDetector where
  subscriptionID : String

/-- Model of `NewAzureDetector`. -/
def NewAzureDetector (subscriptionID : String) : Except String AzureDetector :=
  if subscriptionID = "" then Except.error "Azure subscription ID is required"
  else Except.ok { subscriptionID := subscriptionID }

/-- The test `len(resourceType) > 8 && resourceType[:8] == "azurerm_"`. -/
def isAzureResource (resourceType : String) : Bool :=
  decide (resourceType.utf8ByteSize > 8) && resourceType.data.take 8 == "azurerm_".data

/-- Model of `AzureDetector.checkVirtualMachine`: it logs and returns `nil, nil`. -/
def AzureDetector.checkVirtualMachine (_d : AzureDetector) (_resource : Resource) :
    Except String (Option DriftItem) :=
  Except.ok none

/-- Model of `AzureDetector.checkStorageAccount`: it logs and returns `nil, nil`. -/
def AzureDetector.checkStorageAccount (_d : AzureDetector) (_resource : Resource) :
    Except String (Option DriftItem) :=
  Except.ok none

/-- The loop `for _, resource := range state.Resources` of `AzureDetector.Detect`. -/
def AzureDetector.detectLoop (d : AzureDetector) :
    List Resource → List DriftItem → List DriftItem
  | [], drifts => drifts
  | resource :: rest, drifts =>
    if !isAzureResource resource.Type_ then AzureDetector.detectLoop d rest drifts
    else if resource.Type_ = "azurerm_virtual_machine" then
      AzureDetector.detectLoop d rest (appendCheck drifts (d.checkVirtualMachine resource))
    else if resource.Type_ = "azurerm_storage_account" then
      AzureDetector.detectLoop d rest (appendCheck drifts (d.checkStorageAccount resource))
    else AzureDetector.detectLoop d rest drifts

/-- Model of `AzureDetector.Detect`: the drift items and the error. -/
def AzureDetector.Detect (d : AzureDetector) (state : State) :
    List DriftItem × Option String :=
  (AzureDetector.detectLoop d state.Resources [], none)

/-- An `AzureDetector` as a value of the interface. -/
def AzureDetector.toDetector (d : AzureDetector) : Detector :=
  { Name := "Azure", Detect := fun state => AzureDetector.Detect d state }

/-- State that declares one resource of each GCP and Azure type the detectors look at,
next to the instance `web`. -/
def multiCloudState : State :=
  { Version := 4,
    Resources :=
      [gcpInstance,
       { Type_ := "google_storage_bucket", Name := "assets", Provider := "google",
         Instances := [], Attributes := [("name", Value.str "acme-assets")] },
       webInstance,
       { Type_ := "azurerm_virtual_machine", Name := "jump", Provider := "azurerm",
         Instances := [], Attributes := [("id", Value.str "vm-jump")] },
       { Type_ := "azurerm_storage_account", Name := "blob", Provider := "azurerm",
         Instances := [], Attributes := [("name", Value.str "acmeblob")] }] }

/-! # Theorems -/

/-! ## Auxiliary lemmas on the AWS checks -/

theorem compareEC2Instance_changes {resource : Resource} {instanceID : String}
    {inst : EC2Instance} {item : DriftItem}
    (h : compareEC2Instance resource instanceID inst = some item) : item.Changes ≠ [] := by
  unfold compareEC2Instance at h
  by_cases hlen : (ec2Changes resource inst).length > 0
  · simp only [hlen, if_true, Option.some.injEq] at h
    subst h
    exact List.ne_nil_of_length_pos hlen
  · simp [hlen] at h

theorem compareS3Bucket_changes {d : AWSDetector} {resource : Resource} {bucketName : String}
    {versioning : GetBucketVersioningOutput} {item : DriftItem}
    (h : compareS3Bucket d resource bucketName versioning = some item) : item.Changes ≠ [] := by
  unfold compareS3Bucket at h
  by_cases hlen : (s3Changes d resource bucketName versioning).length > 0
  · simp only [hlen, if_true, Option.some.injEq] at h
    subst h
    exact List.ne_nil_of_length_pos hlen
  · simp [hlen] at h

theorem compareSecurityGroup_changes {resource : Resource} {sgID : String}
    {sg : SecurityGroup} {item : DriftItem}
    (h : compareSecurityGroup resource sgID sg = some item) : item.Changes ≠ [] := by
  unfold compareSecurityGroup at h
  by_cases hlen : (sgChanges resource sg).length > 0
  · simp only [hlen, if_true, Option.some.injEq] at h
    subst h
    exact List.ne_nil_of_length_pos hlen
  · simp [hlen] at h

theorem existenceItem_changes (resource : Resource) (actual : String) :
    (existenceItem resource actual).Changes ≠ [] := by
  simp [existenceItem]

theorem checkEC2Instance_changes {d : AWSDetector} {resource : Resource} {item : DriftItem}
    (h : checkEC2Instance d resource = Except.ok (some item)) : item.Changes ≠ [] := by
  unfold checkEC2Instance at h
  split at h
  · cases h
  · split at h
    · cases h
    · split at h
      · injection h with h; injection h with h; subst h; exact existenceItem_changes _ _
      · split at h
        · injection h with h; injection h with h; subst h; exact existenceItem_changes _ _
        · injection h with h; exact compareEC2Instance_changes h

theorem checkS3Bucket_changes {d : AWSDetector} {resource : Resource} {item : DriftItem}
    (h : checkS3Bucket d resource = Except.ok (some item)) : item.Changes ≠ [] := by
  unfold checkS3Bucket at h
  split at h
  · cases h
  · split at h
    · injection h with h; injection h with h; subst h; exact existenceItem_changes _ _
    · injection h with h; exact compareS3Bucket_changes h

theorem checkSecurityGroup_changes {d : AWSDetector} {resource : Resource} {item : DriftItem}
    (h : checkSecurityGroup d resource = Except.ok (some item)) : item.Changes ≠ [] := by
  unfold checkSecurityGroup at h
  split at h
  · cases h
  · split at h
    · injection h with h; injection h with h; subst h; exact existenceItem_changes _ _
    · split at h
      · injection h with h; injection h with h; subst h; exact existenceItem_changes _ _
      · injection h with h; exact compareSecurityGroup_changes h

theorem appendCheck_inv (P : DriftItem → Prop) (drifts : List DriftItem)
    (res : Except String (Option DriftItem))
    (hd : ∀ x ∈ drifts, P x) (hr : ∀ x, res = Except.ok (some x) → P x) :
    ∀ x ∈ appendCheck drifts res, P x := by
  intro x hx
  match res, hr with
  | Except.error _, _ => exact hd x hx
  | Except.ok none, _ => exact hd x hx
  | Except.ok (some y), hr =>
    simp only [appendCheck, List.mem_append, List.mem_singleton] at hx
    rcases hx with hx | hx
    · exact hd x hx
    · subst hx; exact hr _ rfl

theorem detectLoop_inv (P : DriftItem → Prop) (d : AWSDetector)
    (h1 : ∀ r x, checkEC2Instance d r = Except.ok (some x) → P x)
    (h2 : ∀ r x, checkS3Bucket d r = Except.ok (some x) → P x)
    (h3 : ∀ r x, checkSecurityGroup d r = Except.ok (some x) → P x) :
    ∀ (resources : List Resource) (drifts : List DriftItem),
      (∀ x ∈ drifts, P x) → ∀ x ∈ detectLoop d resources drifts, P x := by
  intro resources
  induction resources with
  | nil => intro drifts hd; simpa [detectLoop] using hd
  | cons r rest ih =>
    intro drifts hd
    unfold detectLoop
    split
    · exact ih drifts hd
    · split
      · exact ih _ (appendCheck_inv P drifts _ hd (h1 r))
      · split
        · exact ih _ (appendCheck_inv P drifts _ hd (h2 r))
        · split
          · exact ih _ (appendCheck_inv P drifts _ hd (h3 r))
          · exact ih drifts hd

theorem isAWSResource_instance : isAWSResource "aws_instance" = true := by decide
theorem isAWSResource_bucket : isAWSResource "aws_s3_bucket" = true := by decide
theorem isAWSResource_group : isAWSResource "aws_security_group" = true := by decide

theorem detect_single_instance (d : AWSDetector) (v : Int) (r : Resource)
    (h : r.Type_ = "aws_instance") :
    Detect d { Version := v, Resources := [r] } = (appendCheck [] (checkEC2Instance d r), none) := by
  simp [Detect, detectLoop, h, isAWSResource_instance]

theorem detect_single_bucket (d : AWSDetector) (v : Int) (r : Resource)
    (h : r.Type_ = "aws_s3_bucket") :
    Detect d { Version := v, Resources := [r] } = (appendCheck [] (checkS3Bucket d r), none) := by
  simp [Detect, detectLoop, h, isAWSResource_bucket]

theorem detect_single_group (d : AWSDetector) (v : Int) (r : Resource)
    (h : r.Type_ = "aws_security_group") :
    Detect d { Version := v, Resources := [r] } =
      (appendCheck [] (checkSecurityGroup d r), none) := by
  simp [Detect, detectLoop, h, isAWSResource_group]

theorem check_of_absent (d : AWSDetector) (r : Resource) (h : liveAbsent d r = true) :
    checkOfType d r = Except.ok (some (existenceItem r (absentText r))) := by
  unfold liveAbsent at h
  unfold checkOfType absentText
  by_cases h1 : r.Type_ = "aws_instance"
  · have h2 : ¬ r.Type_ = "aws_s3_bucket" := by rw [h1]; decide
    simp only [h1, if_true] at h
    simp only [h1, h2, if_true, if_false]
    unfold checkEC2Instance
    cases hid : (mapIndex r.Attributes "id").asString with
    | none => simp [hid] at h
    | some id =>
      simp only [hid] at h ⊢
      cases hout : d.DescribeInstances [id] with
      | error e => simp [hout] at h
      | ok out =>
        simp only [hout] at h ⊢
        cases hres : out.Reservations with
        | nil => rfl
        | cons res rest =>
          simp only [hres] at h ⊢
          cases hi : res.Instances with
          | nil => rfl
          | cons a b => simp [hi] at h
  · simp only [h1, if_false] at h ⊢
    by_cases h2 : r.Type_ = "aws_s3_bucket"
    · simp only [h2, if_true] at h ⊢
      unfold checkS3Bucket
      cases hid : (mapIndex r.Attributes "bucket").asString with
      | none => simp [hid] at h
      | some id =>
        simp only [hid] at h ⊢
        cases hout : d.GetBucketVersioning id with
        | error e => rfl
        | ok out => simp [hout] at h
    · simp only [h2, if_false] at h ⊢
      by_cases h3 : r.Type_ = "aws_security_group"
      · simp only [h3, if_true] at h
        unfold checkSecurityGroup
        cases hid : (mapIndex r.Attributes "id").asString with
        | none => simp [hid] at h
        | some id =>
          simp only [hid] at h ⊢
          cases hout : d.DescribeSecurityGroups [id] with
          | error e => simp [hout] at h
          | ok out =>
            simp only [hout] at h ⊢
            cases hres : out.SecurityGroups with
            | nil => rfl
            | cons sg rest => simp [hres] at h
      · simp [h3] at h

theorem liveAbsent_type (d : AWSDetector) (r : Resource) (h : liveAbsent d r = true) :
    r.Type_ = "aws_instance" ∨ r.Type_ = "aws_s3_bucket" ∨ r.Type_ = "aws_security_group" := by
  unfold liveAbsent at h
  by_cases h1 : r.Type_ = "aws_instance"
  · exact Or.inl h1
  · by_cases h2 : r.Type_ = "aws_s3_bucket"
    · exact Or.inr (Or.inl h2)
    · by_cases h3 : r.Type_ = "aws_security_group"
      · exact Or.inr (Or.inr h3)
      · simp [h1, h2, h3] at h

theorem detect_single_recognized (d : AWSDetector) (v : Int) (r : Resource)
    (h : r.Type_ = "aws_instance" ∨ r.Type_ = "aws_s3_bucket" ∨ r.Type_ = "aws_security_group") :
    Detect d { Version := v, Resources := [r] } = (appendCheck [] (checkOfType d r), none) := by
  rcases h with h | h | h
  · rw [detect_single_instance d v r h]; simp [checkOfType, h]
  · rw [detect_single_bucket d v r h]; simp [checkOfType, h]
  · rw [detect_single_group d v r h]; simp [checkOfType, h]


theorem check_of_fails (d : AWSDetector) (r : Resource) (h : liveQueryFails d r = true) :
    appendCheck [] (checkOfType d r) =
      if r.Type_ = "aws_instance" then [] else [existenceItem r (absentText r)] := by
  unfold liveQueryFails at h
  unfold checkOfType absentText
  by_cases h1 : r.Type_ = "aws_instance"
  · simp only [h1, if_true] at h ⊢
    unfold checkEC2Instance
    cases hid : (mapIndex r.Attributes "id").asString with
    | none => simp [hid] at h
    | some id =>
      simp only [hid] at h ⊢
      cases hout : d.DescribeInstances [id] with
      | error e => rfl
      | ok out => simp [hout] at h
  · simp only [h1, if_false] at h ⊢
    by_cases h2 : r.Type_ = "aws_s3_bucket"
    · simp only [h2, if_true] at h ⊢
      unfold checkS3Bucket
      cases hid : (mapIndex r.Attributes "bucket").asString with
      | none => simp [hid] at h
      | some id =>
        simp only [hid] at h ⊢
        cases hout : d.GetBucketVersioning id with
        | error e => rfl
        | ok out => simp [hout] at h
    · simp only [h2, if_false] at h ⊢
      by_cases h3 : r.Type_ = "aws_security_group"
      · simp only [h3, if_true] at h
        unfold checkSecurityGroup
        cases hid : (mapIndex r.Attributes "id").asString with
        | none => simp [hid] at h
        | some id =>
          simp only [hid] at h ⊢
          cases hout : d.DescribeSecurityGroups [id] with
          | error e => rfl
          | ok out => simp [hout] at h
      · simp [h3] at h

theorem liveQueryFails_type (d : AWSDetector) (r : Resource) (h : liveQueryFails d r = true) :
    r.Type_ = "aws_instance" ∨ r.Type_ = "aws_s3_bucket" ∨ r.Type_ = "aws_security_group" := by
  unfold liveQueryFails at h
  by_cases h1 : r.Type_ = "aws_instance"
  · exact Or.inl h1
  · by_cases h2 : r.Type_ = "aws_s3_bucket"
    · exact Or.inr (Or.inl h2)
    · by_cases h3 : r.Type_ = "aws_security_group"
      · exact Or.inr (Or.inr h3)
      · simp [h1, h2, h3] at h

/-! ## C1 -/

/-- C1: whatever the declared resource and whatever the live replies, a drift item
returned by `checkEC2Instance`, `checkS3Bucket` or `checkSecurityGroup`, and so every drift
item in the result of `AWSDetector.Detect`, has a non-empty list of changes. -/
theorem aws_drift_item_changes_nonempty (d : AWSDetector) (item : DriftItem)
    (h : (∃ resource, checkEC2Instance d resource = Except.ok (some item)) ∨
         (∃ resource, checkS3Bucket d resource = Except.ok (some item)) ∨
         (∃ resource, checkSecurityGroup d resource = Except.ok (some item)) ∨
         (∃ state, item ∈ (Detect d state).1)) :
    item.Changes ≠ [] := by
  rcases h with ⟨r, h⟩ | ⟨r, h⟩ | ⟨r, h⟩ | ⟨state, h⟩
  · exact checkEC2Instance_changes h
  · exact checkS3Bucket_changes h
  · exact checkSecurityGroup_changes h
  · exact detectLoop_inv (fun x => x.Changes ≠ []) d
      (fun _ _ hx => checkEC2Instance_changes hx)
      (fun _ _ hx => checkS3Bucket_changes hx)
      (fun _ _ hx => checkSecurityGroup_changes hx)
      state.Resources [] (fun _ hx => absurd hx (List.not_mem_nil _)) item h

/-- Witness for C1: the instance `web`, declared `t2.micro` and found `t3.large`, is
reported with one change. -/
theorem aws_drift_item_changes_nonempty_witness :
    checkEC2Instance liveAWS webInstance = Except.ok (some webInstanceDrift) ∧
      webInstanceDrift.Changes ≠ [] :=
  ⟨rfl, aws_drift_item_changes_nonempty liveAWS webInstanceDrift (Or.inl ⟨webInstance, rfl⟩)⟩

/-! ## C2 -/

/-- C2: for a resource of a recognized AWS type that carries its identifying attribute and
whose live object is reported absent, the check of its type returns exactly one drift
item; that item has the single change on `existence`, severity `critical`, and nothing
else of the resource enters it (it is built from the type and name alone); `Detect` on
that resource reports exactly this item. -/
theorem absent_live_object_single_existence_item (d : AWSDetector) (resource : Resource)
    (v : Int) (h : liveAbsent d resource = true) :
    ∃ item : DriftItem,
      checkOfType d resource = Except.ok (some item) ∧
      Detect d { Version := v, Resources := [resource] } = ([item], none) ∧
      item.Changes.length = 1 ∧
      item.Changes.map (fun c => c.Field) = ["existence"] ∧
      item.Severity = "critical" ∧
      item = { ResourceType := resource.Type_, ResourceName := resource.Name,
               ResourceID := "", Provider := "AWS", Severity := "critical",
               Changes := [{ Field := "existence", Expected := Value.str "exists",
                             Actual := Value.str (absentText resource) }] } := by
  refine ⟨existenceItem resource (absentText resource), check_of_absent d resource h, ?_,
    rfl, rfl, rfl, rfl⟩
  rw [detect_single_recognized d v resource (liveAbsent_type d resource h),
    check_of_absent d resource h]
  rfl

/-- Witness for C2: the security group `edge` in an account where it is gone. -/
theorem absent_live_object_single_existence_item_witness :
    liveAbsent goneAWS edgeGroup = true ∧
      ∃ item : DriftItem,
        checkOfType goneAWS edgeGroup = Except.ok (some item) ∧
        Detect goneAWS { Version := 4, Resources := [edgeGroup] } = ([item], none) ∧
        item.Changes.length = 1 ∧
        item.Changes.map (fun c => c.Field) = ["existence"] ∧
        item.Severity = "critical" ∧
        item = { ResourceType := edgeGroup.Type_, ResourceName := edgeGroup.Name,
                 ResourceID := "", Provider := "AWS", Severity := "critical",
                 Changes := [{ Field := "existence", Expected := Value.str "exists",
                               Actual := Value.str (absentText edgeGroup) }] } :=
  ⟨rfl, absent_live_object_single_existence_item goneAWS edgeGroup 4 rfl⟩

/-! ## C3 -/

/-- C3 evaluated on the code: for the instance `web`, a `DescribeInstances` call that ends
in an error makes `checkEC2Instance` return an error, which `Detect` logs and skips, so
no drift item is reported, whereas the not-found answer yields the critical existence
item. -/
theorem instance_query_error_is_not_existence_drift :
    liveQueryFails deniedAWS webInstance = true ∧
      liveAbsent goneAWS webInstance = true ∧
      checkEC2Instance deniedAWS webInstance =
        Except.error "failed to describe instance: UnauthorizedOperation" ∧
      Detect deniedAWS { Version := 4, Resources := [webInstance] } = ([], none) ∧
      Detect goneAWS { Version := 4, Resources := [webInstance] } =
        ([existenceItem webInstance "deleted"], none) ∧
      Detect deniedAWS { Version := 4, Resources := [webInstance] } ≠
        Detect goneAWS { Version := 4, Resources := [webInstance] } := by
  refine ⟨rfl, rfl, rfl, rfl, rfl, ?_⟩
  intro h
  have h2 : (Detect deniedAWS { Version := 4, Resources := [webInstance] }).1.length =
      (Detect goneAWS { Version := 4, Resources := [webInstance] }).1.length := by rw [h]
  exact absurd h2 (by decide)

/-- The sibling checks on a failing live query: for a resource of type `aws_s3_bucket` or
`aws_security_group` that carries its identifying attribute, a live query that ends in an
error makes `Detect` report the single critical existence item, the one a not-found answer
gives. -/
theorem sibling_query_error_is_existence_drift (d : AWSDetector) (resource : Resource)
    (v : Int) (herr : liveQueryFails d resource = true)
    (hne : resource.Type_ ≠ "aws_instance") :
    Detect d { Version := v, Resources := [resource] } =
      ([existenceItem resource (absentText resource)], none) := by
  rw [detect_single_recognized d v resource (liveQueryFails_type d resource herr),
    check_of_fails d resource herr, if_neg hne]

/-- The sibling checks evaluated with every call denied: the bucket `logs` and the
security group `edge` are both reported with the existence item. -/
theorem sibling_query_error_examples :
    Detect deniedAWS { Version := 4, Resources := [logsBucket] } =
        ([existenceItem logsBucket "deleted or inaccessible"], none) ∧
      Detect deniedAWS { Version := 4, Resources := [edgeGroup] } =
        ([existenceItem edgeGroup "deleted"], none) :=
  ⟨sibling_query_error_is_existence_drift deniedAWS logsBucket 4 rfl (by decide),
   sibling_query_error_is_existence_drift deniedAWS edgeGroup 4 rfl (by decide)⟩

/-! ## C4 -/

/-- C4, as stated for every list, fails on `determineSeverity`: a list whose `encryption`
change precedes its `existence` change is classified `high`, not `critical`, because the
loop returns at the first change that matches either test. -/
theorem determineSeverity_existence_after_encryption :
    determineSeverity
      [{ Field := "encryption", Expected := Value.str "enabled", Actual := Value.str "disabled" },
       { Field := "existence", Expected := Value.str "exists", Actual := Value.str "deleted" }]
      = "high" := by
  decide

/-! ## C5 -/

/-- C5, as stated for every two lists, fails on `determineSeverity`: two lists that are
permutations of each other, each holding an `existence` and an `encryption` change,
receive different severities. -/
theorem determineSeverity_depends_on_order :
    List.Perm
        [({ Field := "encryption", Expected := Value.str "enabled",
            Actual := Value.str "disabled" } : Change),
         { Field := "existence", Expected := Value.str "exists", Actual := Value.str "deleted" }]
        [{ Field := "existence", Expected := Value.str "exists", Actual := Value.str "deleted" },
         { Field := "encryption", Expected := Value.str "enabled",
           Actual := Value.str "disabled" }] ∧
      determineSeverity
        [{ Field := "encryption", Expected := Value.str "enabled",
           Actual := Value.str "disabled" },
         { Field := "existence", Expected := Value.str "exists", Actual := Value.str "deleted" }]
        = "high" ∧
      determineSeverity
        [{ Field := "existence", Expected := Value.str "exists", Actual := Value.str "deleted" },
         { Field := "encryption", Expected := Value.str "enabled",
           Actual := Value.str "disabled" }]
        = "critical" := by
  refine ⟨List.Perm.swap _ _ _, ?_, ?_⟩ <;> decide

/-! ## C6 -/

theorem determineSeverity_range (changes : List Change) :
    determineSeverity changes = "critical" ∨ determineSeverity changes = "high" ∨
      determineSeverity changes = "medium" := by
  induction changes with
  | nil => right; right; rfl
  | cons c rest ih =>
    unfold determineSeverity
    split
    · exact Or.inl rfl
    · split
      · exact Or.inr (Or.inl rfl)
      · exact ih

/-- C6: on a list with no `existence` change, `determineSeverity` returns `high` when
some change is on `encryption` or `public_access` and `medium` otherwise (so `medium` on
the empty list); on any list at all the result is `critical`, `high` or `medium`, never
`low`. -/
theorem determineSeverity_without_existence (changes anyChanges : List Change)
    (h : ∀ c ∈ changes, c.Field ≠ "existence") :
    determineSeverity changes =
        (if ∃ c ∈ changes, c.Field = "encryption" ∨ c.Field = "public_access" then "high"
         else "medium") ∧
      determineSeverity [] = "medium" ∧
      (determineSeverity anyChanges = "critical" ∨ determineSeverity anyChanges = "high" ∨
        determineSeverity anyChanges = "medium") ∧
      determineSeverity anyChanges ≠ "low" := by
  refine ⟨?_, rfl, determineSeverity_range anyChanges, ?_⟩
  · induction changes with
    | nil => simp [determineSeverity]
    | cons c rest ih =>
      have hc : c.Field ≠ "existence" := h c (List.mem_cons_self _ _)
      have hrest : ∀ x ∈ rest, x.Field ≠ "existence" :=
        fun x hx => h x (List.mem_cons_of_mem _ hx)
      unfold determineSeverity
      rw [if_neg hc]
      by_cases he : c.Field = "encryption" ∨ c.Field = "public_access"
      · rw [if_pos he, if_pos ⟨c, List.mem_cons_self _ _, he⟩]
      · rw [if_neg he, ih hrest]
        by_cases hr : ∃ x ∈ rest, x.Field = "encryption" ∨ x.Field = "public_access"
        · obtain ⟨x, hx, hxe⟩ := hr
          rw [if_pos ⟨x, hx, hxe⟩, if_pos ⟨x, List.mem_cons_of_mem _ hx, hxe⟩]
        · rw [if_neg hr, if_neg]
          rintro ⟨x, hx, hxe⟩
          rcases List.mem_cons.mp hx with hx | hx
          · subst hx; exact he hxe
          · exact hr ⟨x, hx, hxe⟩
  · rcases determineSeverity_range anyChanges with h1 | h1 | h1 <;> rw [h1] <;> decide

/-- Witness for C6: a versioning change followed by an encryption change. -/
theorem determineSeverity_without_existence_witness :
    determineSeverity
        [{ Field := "versioning", Expected := Value.str "Enabled",
           Actual := Value.str "Suspended" },
         { Field := "encryption", Expected := Value.str "enabled",
           Actual := Value.str "disabled" }] = "high" := by
  have h := (determineSeverity_without_existence
    [{ Field := "versioning", Expected := Value.str "Enabled", Actual := Value.str "Suspended" },
     { Field := "encryption", Expected := Value.str "enabled", Actual := Value.str "disabled" }]
    [{ Field := "existence", Expected := Value.str "exists", Actual := Value.str "deleted" }]
    (by simp)).1
  rw [h, if_pos]
  exact ⟨_, List.mem_cons_of_mem _ (List.mem_cons_self _ _), Or.inl rfl⟩

/-! ## C7 -/

/-- C7: given zero drift items, `GenerateReport` returns a report whose summary is exactly
the fixed no-drift sentence and whose list of drifts is empty. -/
theorem GenerateReport_no_drift (now : Nat) (drifts : List DriftItem)
    (h : drifts.length = 0) :
    (GenerateReport now drifts).Summary =
        "No drift detected. Infrastructure is in sync with Terraform state." ∧
      (GenerateReport now drifts).Drifts = [] := by
  have hnil : drifts = [] := List.length_eq_zero.mp h
  subst hnil
  exact ⟨rfl, rfl⟩

/-- Witness for C7: the empty list at clock reading 1700000000. -/
theorem GenerateReport_no_drift_witness :
    ([] : List DriftItem).length = 0 ∧
      (GenerateReport 1700000000 []).Summary =
        "No drift detected. Infrastructure is in sync with Terraform state." ∧
      (GenerateReport 1700000000 []).Drifts = [] :=
  ⟨rfl, GenerateReport_no_drift 1700000000 [] rfl⟩

/-! ## C8 -/

theorem countLoop_eq (drifts : List DriftItem) (n : SeverityCounts) :
    countLoop drifts n =
      { critical := n.critical + severityCount "critical" drifts,
        high := n.high + severityCount "high" drifts,
        medium := n.medium + severityCount "medium" drifts,
        low := n.low + severityCount "low" drifts } := by
  induction drifts generalizing n with
  | nil => simp [countLoop, severityCount]
  | cons d rest ih =>
    unfold countLoop
    by_cases h1 : d.Severity = "critical"
    · rw [if_pos h1, ih]
      simp [severityCount, List.countP_cons, h1]
      omega
    · rw [if_neg h1]
      by_cases h2 : d.Severity = "high"
      · rw [if_pos h2, ih]
        simp [severityCount, List.countP_cons, h2]
        omega
      · rw [if_neg h2]
        by_cases h3 : d.Severity = "medium"
        · rw [if_pos h3, ih]
          simp [severityCount, List.countP_cons, h3]
          omega
        · rw [if_neg h3]
          by_cases h4 : d.Severity = "low"
          · rw [if_pos h4, ih]
            simp [severityCount, List.countP_cons, h4]
            omega
          · rw [if_neg h4, ih]
            simp [severityCount, List.countP_cons, h1, h2, h3, h4]

theorem string_append_ne_empty (a b : String) (h : a ≠ "") : a ++ b ≠ "" := by
  intro hab
  apply h
  have hl := congrArg String.length hab
  simp only [String.length_append] at hl
  have ha : a.length = 0 := by
    have h0 : ("" : String).length = 0 := rfl
    omega
  apply String.ext
  exact List.length_eq_zero.mp ha

theorem formatCount_ne_empty (count : Int) (severity : String) :
    formatCount count severity ≠ "" := by
  intro h
  have hl := congrArg String.length h
  unfold formatCount at hl
  split at hl
  · simp only [String.length_append] at hl
    have h1 : (" drift" : String).length = 6 := by decide
    have h0 : ("" : String).length = 0 := rfl
    omega
  · simp only [String.length_append] at hl
    have h1 : (" drifts" : String).length = 7 := by decide
    have h0 : ("" : String).length = 0 := rfl
    omega

theorem formatSummary_eq (total : Int) (c h m l : Nat) :
    formatSummary total c h m l = String.intercalate ", " (summaryClauses c h m l) := by
  have hc : ((c : Int) > 0) ↔ c ≠ 0 := by omega
  have hh : ((h : Int) > 0) ↔ h ≠ 0 := by omega
  have hm : ((m : Int) > 0) ↔ m ≠ 0 := by omega
  have hl : ((l : Int) > 0) ↔ l ≠ 0 := by omega
  have nc := formatCount_ne_empty c "critical"
  have nh := formatCount_ne_empty h "high"
  have nm := formatCount_ne_empty m "medium"
  unfold formatSummary summaryClauses
  simp only [hc, hh, hm, hl]
  by_cases c0 : c = 0 <;> by_cases h0 : h = 0 <;> by_cases m0 : m = 0 <;> by_cases l0 : l = 0 <;>
    simp [c0, h0, m0, l0, List.filter, String.intercalate, String.intercalate.go, nc, nh, nm,
      string_append_ne_empty, String.append_assoc]

/-- C8: for a non-empty list of drift items with per-severity counts (c, h, m, l), the
summary of `GenerateReport` is the clauses of the non-empty buckets, in the order
critical, high, medium, low, joined by ", " (so with no separator before the first or
after the last clause and no clause for an empty bucket); the clause of a bucket of count
1 is "1 <severity> drift". -/
theorem GenerateReport_summary_clauses (now : Nat) (drifts : List DriftItem)
    (h : drifts ≠ []) :
    (GenerateReport now drifts).Summary =
        String.intercalate ", "
          (summaryClauses (severityCount "critical" drifts) (severityCount "high" drifts)
            (severityCount "medium" drifts) (severityCount "low" drifts)) ∧
      (∀ severity : String, formatCount 1 severity = "1 " ++ severity ++ " drift") := by
  constructor
  · have hlen : drifts.length ≠ 0 := fun h0 => h (List.length_eq_zero.mp h0)
    unfold GenerateReport
    simp only [hlen, if_false]
    rw [countLoop_eq]
    simp only [Int.zero_add]
    exact formatSummary_eq _ _ _ _ _
  · intro severity
    rfl

/-- Witness for C8: one critical, one high and one low drift item. -/
theorem GenerateReport_summary_clauses_witness :
    (GenerateReport 1700000000
        [bucketDrift "a" "high", bucketDrift "b" "critical", bucketDrift "c" "low"]).Summary =
      "1 critical drift, 1 high drift, 1 low drift" := by
  rw [(GenerateReport_summary_clauses 1700000000
    [bucketDrift "a" "high", bucketDrift "b" "critical", bucketDrift "c" "low"]
    (by simp)).1]
  decide

/-! ## C9 -/

/-- C9 evaluated on the code: two high-severity drift items give the clause made of the
control character U+0002 followed by " high drifts", not "2 high drifts": `formatCount`
converts the count to the character with that code point instead of to its numeral. -/
theorem GenerateReport_two_high_drifts :
    (GenerateReport 1700000000 [bucketDrift "a" "high", bucketDrift "b" "high"]).Summary =
        "\x02 high drifts" ∧
      (GenerateReport 1700000000 [bucketDrift "a" "high", bucketDrift "b" "high"]).Summary ≠
        "2 high drifts" ∧
      formatCount 2 "high" = "\x02 high drifts" := by
  refine ⟨by decide, by decide, by decide⟩

/-! ## C10 -/

theorem dispatch_state (cfg : NotificationConfig)
    (send : Channel → Report → Option String) (report : Report) :
    (dispatch cfg send report).calls =
        [Channel.slack, Channel.email, Channel.webhook].filter cfg.enabled ∧
      (dispatch cfg send report).errors =
        ([Channel.slack, Channel.email, Channel.webhook].filter cfg.enabled).filterMap
          (fun ch => send ch report) := by
  obtain ⟨s, e, w⟩ := cfg
  cases s <;> cases e <;> cases w <;>
    cases h1 : send Channel.slack report <;>
    cases h2 : send Channel.email report <;>
    cases h3 : send Channel.webhook report <;>
    simp [dispatch, callSend, h1, h2, h3, NotificationConfig.enabled]

theorem sendNotifications_fst (cfg : NotificationConfig)
    (send : Channel → Report → Option String) (report : Report) :
    (sendNotifications cfg send report).1 = dispatch cfg send report := by
  unfold sendNotifications
  by_cases hlen : (dispatch cfg send report).errors.length > 0
  · simp only [hlen, if_true]
  · simp only [hlen, if_false]

theorem sendNotifications_error (cfg : NotificationConfig)
    (send : Channel → Report → Option String) (report : Report) :
    (sendNotifications cfg send report).2.isSome = true ↔
      (dispatch cfg send report).errors ≠ [] := by
  unfold sendNotifications
  by_cases hlen : (dispatch cfg send report).errors.length > 0
  · simp only [hlen, if_true, Option.isSome_some, true_iff]
    exact List.ne_nil_of_length_pos hlen
  · simp only [hlen, if_false, Option.isSome_none, Bool.false_eq_true, false_iff, ne_eq,
      not_not]
    exact List.length_eq_zero.mp (by omega)

/-- C10: whatever the configuration of the three channels and whatever their `Send`
calls return, `sendNotifications` returns an error exactly when the `Send` of some enabled
channel returned an error; the `Send` calls made are those of the enabled channels, once
each, in the order slack, email, webhook, whether or not an earlier one failed; the `Send`
of a disabled channel is not called; the collected errors are those of the enabled
channels. -/
theorem sendNotifications_aggregate (cfg : NotificationConfig)
    (send : Channel → Report → Option String) (report : Report) :
    ((sendNotifications cfg send report).2.isSome = true ↔
        ∃ ch, cfg.enabled ch = true ∧ (send ch report).isSome = true) ∧
      (sendNotifications cfg send report).1.calls =
        [Channel.slack, Channel.email, Channel.webhook].filter cfg.enabled ∧
      (∀ ch, (sendNotifications cfg send report).1.calls.count ch =
        if cfg.enabled ch = true then 1 else 0) ∧
      (sendNotifications cfg send report).1.errors =
        ([Channel.slack, Channel.email, Channel.webhook].filter cfg.enabled).filterMap
          (fun ch => send ch report) := by
  obtain ⟨hcalls, herrors⟩ := dispatch_state cfg send report
  rw [sendNotifications_fst]
  refine ⟨?_, hcalls, ?_, herrors⟩
  · rw [sendNotifications_error, herrors]
    constructor
    · intro hne
      obtain ⟨err, herr⟩ := List.exists_mem_of_ne_nil _ hne
      obtain ⟨ch, hch, hsend⟩ := List.mem_filterMap.mp herr
      exact ⟨ch, (List.mem_filter.mp hch).2, by rw [hsend]; rfl⟩
    · rintro ⟨ch, hen, hsome⟩ hnil
      obtain ⟨err, herr⟩ := Option.isSome_iff_exists.mp hsome
      have hall : ch ∈ [Channel.slack, Channel.email, Channel.webhook] := by
        cases ch <;> simp
      have hmem : err ∈ ([Channel.slack, Channel.email, Channel.webhook].filter
          cfg.enabled).filterMap (fun ch => send ch report) :=
        List.mem_filterMap.mpr ⟨ch, List.mem_filter.mpr ⟨hall, hen⟩, herr⟩
      rw [hnil] at hmem
      exact absurd hmem (List.not_mem_nil _)
  · intro ch
    rw [hcalls]
    obtain ⟨s, e, w⟩ := cfg
    cases ch <;> cases s <;> cases e <;> cases w <;>
      simp [NotificationConfig.enabled, List.filter]

/-! ## C13 -/

theorem appendCheck_eq (drifts : List DriftItem) (res : Except String (Option DriftItem)) :
    appendCheck drifts res =
      drifts ++ (match res with
        | Except.ok (some item) => [item]
        | Except.ok none => []
        | Except.error _ => []) := by
  match res with
  | Except.error _ => simp [appendCheck]
  | Except.ok none => simp [appendCheck]
  | Except.ok (some y) => simp [appendCheck]

theorem detectLoop_eq (d : AWSDetector) (resources : List Resource) :
    ∀ drifts : List DriftItem,
      detectLoop d resources drifts = drifts ++ resources.flatMap (resourceDrifts d) := by
  induction resources with
  | nil => intro drifts; simp [detectLoop]
  | cons r rest ih =>
    intro drifts
    unfold detectLoop
    rw [List.flatMap_cons]
    by_cases h1 : r.Type_ = "aws_instance"
    · have h2 : ¬ r.Type_ = "aws_s3_bucket" := by rw [h1]; decide
      simp only [h1, isAWSResource_instance, Bool.not_true, Bool.false_eq_true, if_false,
        if_true]
      rw [ih, appendCheck_eq]
      simp [resourceDrifts, checkOfType, h1, List.append_assoc]
    · by_cases h2 : r.Type_ = "aws_s3_bucket"
      · simp only [h2, isAWSResource_bucket, Bool.not_true, Bool.false_eq_true, if_false,
          if_true]
        rw [if_neg (by decide), ih, appendCheck_eq]
        simp [resourceDrifts, checkOfType, h2, List.append_assoc]
      · by_cases h3 : r.Type_ = "aws_security_group"
        · simp only [h3, isAWSResource_group, Bool.not_true, Bool.false_eq_true, if_false,
            if_true]
          rw [if_neg (by decide), if_neg (by decide), ih, appendCheck_eq]
          simp [resourceDrifts, checkOfType, h3, List.append_assoc]
        · have hnone : resourceDrifts d r = [] := by simp [resourceDrifts, h1, h2, h3]
          rw [hnone, List.nil_append]
          simp only [h1, h2, h3, if_false]
          split <;> exact ih drifts

/-- C13: for every state, `AWSDetector.Detect` returns no error and its result is the
concatenation, in the state's resource order, of what each resource contributes: nothing
for a resource whose type is not `aws_instance`, `aws_s3_bucket` or `aws_security_group`
(so nothing for a type that does not start with `aws_`), nothing for a resource whose
check returns an error or finds no mismatch, and the one drift item of the check
otherwise; a failing check does not stop the inspection of the resources after it. -/
theorem Detect_is_concatenation_of_checks (d : AWSDetector) (state : State) :
    (Detect d state).2 = none ∧
      (Detect d state).1 = state.Resources.flatMap (resourceDrifts d) ∧
      (∀ before after : List Resource, ∀ v : Int, ∀ resource : Resource,
        (Detect d { Version := v, Resources := before ++ resource :: after }).1 =
          (Detect d { Version := v, Resources := before }).1 ++ resourceDrifts d resource ++
            (Detect d { Version := v, Resources := after }).1) ∧
      (∀ resource : Resource, (resourceDrifts d resource).length ≤ 1) ∧
      (∀ resource : Resource, isAWSResource resource.Type_ = true ∨
        resourceDrifts d resource = []) := by
  refine ⟨rfl, ?_, ?_, ?_, ?_⟩
  · simp [Detect, detectLoop_eq]
  · intro before after v resource
    simp [Detect, detectLoop_eq, List.flatMap_append]
  · intro resource
    unfold resourceDrifts
    split
    · split <;> simp
    · simp
  · intro resource
    cases hno : isAWSResource resource.Type_ with
    | true => exact Or.inl rfl
    | false =>
      right
      unfold resourceDrifts
      rw [if_neg]
      rintro (h | h | h) <;> rw [h] at hno <;> revert hno <;> decide

/-! ## Auxiliary lemmas: the changes each check can emit -/

theorem tagsLoop_mem (actualTags : String → Option String) :
    ∀ (expectedTags : List (String × Value)) (changes : List Change) (c : Change),
      c ∈ tagsLoop actualTags expectedTags changes →
        c ∈ changes ∨
          ∃ key expectedVal,
            c = { Field := "tags." ++ key, Expected := expectedVal,
                  Actual := Value.str ((actualTags key).getD "") } ∧
            (actualTags key = none ∨
              ∃ actualVal, actualTags key = some actualVal ∧
                expectedVal.eqString actualVal = false) := by
  intro expectedTags
  induction expectedTags with
  | nil => intro changes c h; exact Or.inl (by simpa [tagsLoop] using h)
  | cons kv rest ih =>
    obtain ⟨key, expectedVal⟩ := kv
    intro changes c h
    unfold tagsLoop at h
    simp only at h
    split at h
    · rename_i hd
      rcases ih _ c h with hmem | hnew
      · rcases List.mem_append.mp hmem with hmem | hmem
        · exact Or.inl hmem
        · right
          refine ⟨key, expectedVal, List.mem_singleton.mp hmem, ?_⟩
          cases hk : actualTags key with
          | none => exact Or.inl rfl
          | some actualVal =>
            right
            refine ⟨actualVal, rfl, ?_⟩
            simpa [hk] using hd
      · exact Or.inr hnew
    · exact ih _ c h

theorem ec2Changes_mem {resource : Resource} {inst : EC2Instance} {c : Change}
    (h : c ∈ ec2Changes resource inst) :
    (c = { Field := "instance_type",
           Expected := Value.str
             (((mapIndex resource.Attributes "instance_type").asString).getD ""),
           Actual := Value.str inst.InstanceType } ∧
        inst.InstanceType ≠ ((mapIndex resource.Attributes "instance_type").asString).getD "") ∨
      ∃ key expectedVal actual,
        c = { Field := "tags." ++ key, Expected := expectedVal, Actual := Value.str actual } ∧
        ((actual = "") ∨ expectedVal.eqString actual = false) := by
  unfold ec2Changes at h
  simp only at h
  rcases tagsLoop_mem _ _ _ c h with hmem | ⟨key, expectedVal, hc, hcond⟩
  · left
    split at hmem
    · rename_i hne
      exact ⟨by simpa using hmem, hne⟩
    · simp at hmem
  · right
    refine ⟨key, expectedVal, _, hc, ?_⟩
    rcases hcond with hnone | ⟨actualVal, hsome, hneq⟩
    · left; rw [hnone]; rfl
    · right; rw [hsome]; exact hneq

theorem s3Changes_mem {d : AWSDetector} {resource : Resource} {bucketName : String}
    {versioning : GetBucketVersioningOutput} {c : Change}
    (h : c ∈ s3Changes d resource bucketName versioning) :
    (c = { Field := "versioning", Expected := Value.str "Enabled",
           Actual := Value.str versioning.Status } ∧ versioning.Status ≠ "Enabled") ∨
      c = { Field := "encryption", Expected := Value.str "enabled",
            Actual := Value.str "disabled" } ∨
      c = { Field := "encryption", Expected := Value.str "disabled",
            Actual := Value.str "enabled" } := by
  unfold s3Changes at h
  simp only at h
  cases hm : (mapIndex resource.Attributes "versioning").asMap with
  | none =>
    simp only [hm] at h
    split at h
    · exact Or.inr (Or.inl (by simpa using h))
    · split at h
      · exact Or.inr (Or.inr (by simpa using h))
      · simp at h
  | some expectedVersioning =>
    simp only [hm] at h
    by_cases hv : (mapIndex expectedVersioning "enabled").asBool = true ∧
        versioning.Status ≠ "Enabled"
    · rw [if_pos hv] at h
      simp only [List.nil_append] at h
      split at h
      · rcases List.mem_append.mp h with h | h
        · exact Or.inl ⟨List.mem_singleton.mp h, hv.2⟩
        · exact Or.inr (Or.inl (List.mem_singleton.mp h))
      · split at h
        · rcases List.mem_append.mp h with h | h
          · exact Or.inl ⟨List.mem_singleton.mp h, hv.2⟩
          · exact Or.inr (Or.inr (List.mem_singleton.mp h))
        · exact Or.inl ⟨List.mem_singleton.mp h, hv.2⟩
    · rw [if_neg hv] at h
      split at h
      · exact Or.inr (Or.inl (by simpa using h))
      · split at h
        · exact Or.inr (Or.inr (by simpa using h))
        · simp at h

theorem sgChanges_mem {resource : Resource} {sg : SecurityGroup} {c : Change}
    (h : c ∈ sgChanges resource sg) :
    ∃ (field : String) (expected actual : Nat),
      c = { Field := field, Expected := Value.int expected, Actual := Value.int actual } ∧
      (field = "ingress_rules_count" ∨ field = "egress_rules_count") ∧ actual ≠ expected := by
  unfold sgChanges at h
  simp only at h
  by_cases hi : sg.IpPermissions.length ≠ (mapIndex resource.Attributes "ingress").asSlice.length
  · by_cases he : sg.IpPermissionsEgress.length ≠
        (mapIndex resource.Attributes "egress").asSlice.length
    · simp only [hi, he, if_true, List.nil_append, ne_eq, not_false_eq_true] at h
      rcases List.mem_append.mp h with h | h
      · exact ⟨_, _, _, List.mem_singleton.mp h, Or.inl rfl, hi⟩
      · exact ⟨_, _, _, List.mem_singleton.mp h, Or.inr rfl, he⟩
    · simp only [hi, he, if_true, if_false, List.nil_append, ne_eq, not_false_eq_true] at h
      exact ⟨_, _, _, List.mem_singleton.mp h, Or.inl rfl, hi⟩
  · by_cases he : sg.IpPermissionsEgress.length ≠
        (mapIndex resource.Attributes "egress").asSlice.length
    · simp only [hi, he, if_true, if_false, List.nil_append, ne_eq, not_false_eq_true] at h
      exact ⟨_, _, _, List.mem_singleton.mp h, Or.inr rfl, he⟩
    · simp [hi, he] at h

theorem checkEC2Instance_cases {d : AWSDetector} {resource : Resource} {item : DriftItem}
    (h : checkEC2Instance d resource = Except.ok (some item)) :
    item = existenceItem resource "deleted" ∨
      ∃ inst, item.Changes = ec2Changes resource inst := by
  unfold checkEC2Instance at h
  split at h
  · cases h
  · split at h
    · cases h
    · split at h
      · injection h with h; injection h with h; exact Or.inl h.symm
      · split at h
        · injection h with h; injection h with h; exact Or.inl h.symm
        · rename_i inst _ _
          injection h with h
          right
          refine ⟨inst, ?_⟩
          unfold compareEC2Instance at h
          by_cases hlen : (ec2Changes resource inst).length > 0
          · simp only [hlen, if_true, Option.some.injEq] at h
            rw [← h]
          · simp [hlen] at h

theorem checkS3Bucket_cases {d : AWSDetector} {resource : Resource} {item : DriftItem}
    (h : checkS3Bucket d resource = Except.ok (some item)) :
    item = existenceItem resource "deleted or inaccessible" ∨
      ∃ bucketName versioning, item.Changes = s3Changes d resource bucketName versioning := by
  unfold checkS3Bucket at h
  split at h
  · cases h
  · rename_i bucketName _
    split at h
    · injection h with h; injection h with h; exact Or.inl h.symm
    · rename_i versioning _
      injection h with h
      right
      refine ⟨bucketName, versioning, ?_⟩
      unfold compareS3Bucket at h
      by_cases hlen : (s3Changes d resource bucketName versioning).length > 0
      · simp only [hlen, if_true, Option.some.injEq] at h
        rw [← h]
      · simp [hlen] at h

theorem checkSecurityGroup_cases {d : AWSDetector} {resource : Resource} {item : DriftItem}
    (h : checkSecurityGroup d resource = Except.ok (some item)) :
    item = existenceItem resource "deleted" ∨
      ∃ sg, item.Changes = sgChanges resource sg := by
  unfold checkSecurityGroup at h
  split at h
  · cases h
  · rename_i sgID _
    split at h
    · injection h with h; injection h with h; exact Or.inl h.symm
    · split at h
      · injection h with h; injection h with h; exact Or.inl h.symm
      · rename_i sg _ _
        injection h with h
        right
        refine ⟨sg, ?_⟩
        unfold compareSecurityGroup at h
        by_cases hlen : (sgChanges resource sg).length > 0
        · simp only [hlen, if_true, Option.some.injEq] at h
          rw [← h]
        · simp [hlen] at h

theorem tags_field_ne_existence (key : String) : "tags." ++ key ≠ "existence" := by
  intro h
  have hd := congrArg String.data h
  rw [String.data_append] at hd
  have h1 : ("tags." : String).data = ['t', 'a', 'g', 's', '.'] := rfl
  have h2 : ("existence" : String).data = ['e', 'x', 'i', 's', 't', 'e', 'n', 'c', 'e'] := rfl
  rw [h1, h2] at hd
  simp at hd

theorem eqString_false_ne {v : Value} {s : String} (h : v.eqString s = false) :
    v ≠ Value.str s := by
  intro hv
  subst hv
  simp [Value.eqString] at h

theorem ec2Changes_no_existence {resource : Resource} {inst : EC2Instance} {c : Change}
    (h : c ∈ ec2Changes resource inst) : c.Field ≠ "existence" := by
  rcases ec2Changes_mem h with ⟨hc, _⟩ | ⟨key, expectedVal, actual, hc, _⟩
  · rw [hc]; show "instance_type" ≠ "existence"; decide
  · rw [hc]; exact tags_field_ne_existence key

theorem s3Changes_no_existence {d : AWSDetector} {resource : Resource} {bucketName : String}
    {versioning : GetBucketVersioningOutput} {c : Change}
    (h : c ∈ s3Changes d resource bucketName versioning) : c.Field ≠ "existence" := by
  rcases s3Changes_mem h with ⟨hc, _⟩ | hc | hc
  · rw [hc]; show "versioning" ≠ "existence"; decide
  · rw [hc]; show "encryption" ≠ "existence"; decide
  · rw [hc]; show "encryption" ≠ "existence"; decide

theorem sgChanges_no_existence {resource : Resource} {sg : SecurityGroup} {c : Change}
    (h : c ∈ sgChanges resource sg) : c.Field ≠ "existence" := by
  obtain ⟨field, expected, actual, hc, hf, _⟩ := sgChanges_mem h
  rw [hc]
  rcases hf with hf | hf
  · rw [hf]; show "ingress_rules_count" ≠ "existence"; decide
  · rw [hf]; show "egress_rules_count" ≠ "existence"; decide

/-! ## C17 -/

/-- C17, as stated, fails on a declared tag whose value is the empty string and whose key
the live instance does not carry: the check reports the change `tags.Name` with the empty
string both as expected and as actual value. -/
theorem missing_blank_tag_change_has_equal_values :
    checkEC2Instance untaggedAWS blankTagInstance = Except.ok (some blankTagDrift) ∧
      blankTagDrift.Changes =
        [{ Field := "tags.Name", Expected := Value.str "", Actual := Value.str "" }] ∧
      ¬ (∀ c ∈ blankTagDrift.Changes, c.Expected ≠ c.Actual) := by
  refine ⟨rfl, rfl, ?_⟩
  intro h
  exact h { Field := "tags.Name", Expected := Value.str "", Actual := Value.str "" }
    (List.mem_singleton.mpr rfl) rfl

/-- C17 amended: every change in a drift item returned by `checkEC2Instance`,
`checkS3Bucket` or `checkSecurityGroup` has an expected value different from its actual
value, except a change on a `tags.<key>` field whose expected and actual values are both
the empty string (a tag declared with an empty value and missing on the live instance). -/
theorem change_values_differ_or_blank_tag (d : AWSDetector) (item : DriftItem) (c : Change)
    (h : (∃ resource, checkEC2Instance d resource = Except.ok (some item)) ∨
         (∃ resource, checkS3Bucket d resource = Except.ok (some item)) ∨
         (∃ resource, checkSecurityGroup d resource = Except.ok (some item)))
    (hc : c ∈ item.Changes) :
    c.Expected ≠ c.Actual ∨
      ∃ key, c.Field = "tags." ++ key ∧ c.Expected = Value.str "" ∧
        c.Actual = Value.str "" := by
  have hex : ∀ (r : Resource) (text : String), text ≠ "exists" →
      c ∈ (existenceItem r text).Changes → c.Expected ≠ c.Actual := by
    intro r text htext hmem
    have hceq : c = { Field := "existence", Expected := Value.str "exists",
                      Actual := Value.str text } := by
      simpa [existenceItem] using hmem
    rw [hceq]
    intro heq
    injection heq with heq
    exact htext heq.symm
  rcases h with ⟨r, h⟩ | ⟨r, h⟩ | ⟨r, h⟩
  · rcases checkEC2Instance_cases h with hitem | ⟨inst, hch⟩
    · rw [hitem] at hc
      exact Or.inl (hex r "deleted" (by decide) hc)
    · rw [hch] at hc
      rcases ec2Changes_mem hc with ⟨hceq, hne⟩ | ⟨key, expectedVal, actual, hceq, hcond⟩
      · left
        rw [hceq]
        intro heq
        injection heq with heq
        exact hne heq.symm
      · rw [hceq]
        rcases hcond with hblank | hneq
        · by_cases hv : expectedVal = Value.str ""
          · right
            exact ⟨key, rfl, hv, by rw [hblank]⟩
          · left
            rw [hblank]
            exact hv
        · exact Or.inl (eqString_false_ne hneq)
  · rcases checkS3Bucket_cases h with hitem | ⟨b, v, hch⟩
    · rw [hitem] at hc
      exact Or.inl (hex r "deleted or inaccessible" (by decide) hc)
    · rw [hch] at hc
      left
      rcases s3Changes_mem hc with ⟨hceq, hne⟩ | hceq | hceq
      · rw [hceq]
        intro heq
        injection heq with heq
        exact hne heq.symm
      · rw [hceq]
        intro heq
        injection heq with heq
        exact absurd heq (by decide)
      · rw [hceq]
        intro heq
        injection heq with heq
        exact absurd heq (by decide)
  · rcases checkSecurityGroup_cases h with hitem | ⟨sg, hch⟩
    · rw [hitem] at hc
      exact Or.inl (hex r "deleted" (by decide) hc)
    · rw [hch] at hc
      left
      obtain ⟨field, expected, actual, hceq, _, hne⟩ := sgChanges_mem hc
      rw [hceq]
      intro heq
      injection heq with heq
      exact hne (Int.ofNat.inj heq).symm

/-- Witness for C17 amended: the instance `web`, declared `t2.micro` and found
`t3.large`. -/
theorem change_values_differ_or_blank_tag_witness :
    (Value.str "t2.micro" ≠ Value.str "t3.large") ∨
      ∃ key, "instance_type" = "tags." ++ key ∧ Value.str "t2.micro" = Value.str "" ∧
        Value.str "t3.large" = Value.str "" :=
  change_values_differ_or_blank_tag liveAWS webInstanceDrift
    { Field := "instance_type", Expected := Value.str "t2.micro",
      Actual := Value.str "t3.large" }
    (Or.inl ⟨webInstance, rfl⟩) (List.mem_singleton.mpr rfl)

/-! ## C18 -/

/-- C18, as stated, fails for S3 buckets: the existence change that `checkS3Bucket` emits
has the actual value "deleted or inaccessible", not "deleted". -/
theorem bucket_existence_change_actual_text :
    checkS3Bucket goneAWS logsBucket =
        Except.ok (some (existenceItem logsBucket "deleted or inaccessible")) ∧
      (existenceItem logsBucket "deleted or inaccessible").Changes =
        [{ Field := "existence", Expected := Value.str "exists",
           Actual := Value.str "deleted or inaccessible" }] ∧
      Value.str "deleted or inaccessible" ≠ Value.str "deleted" := by
  refine ⟨rfl, rfl, ?_⟩
  intro h
  injection h with h
  exact absurd h (by decide)

/-- C18 amended: every change on the `existence` field emitted by an AWS check has the
expected value "exists"; its actual value is "deleted" when the check is
`checkEC2Instance` or `checkSecurityGroup`, and "deleted or inaccessible" when the check
is `checkS3Bucket`. -/
theorem existence_change_values (d : AWSDetector) (resource : Resource) (item : DriftItem)
    (c : Change) (text : String)
    (h : (checkEC2Instance d resource = Except.ok (some item) ∧ text = "deleted") ∨
         (checkSecurityGroup d resource = Except.ok (some item) ∧ text = "deleted") ∨
         (checkS3Bucket d resource = Except.ok (some item) ∧
           text = "deleted or inaccessible"))
    (hc : c ∈ item.Changes) (hf : c.Field = "existence") :
    c.Expected = Value.str "exists" ∧ c.Actual = Value.str text := by
  have hex : ∀ t : String, c ∈ (existenceItem resource t).Changes →
      c.Expected = Value.str "exists" ∧ c.Actual = Value.str t := by
    intro t hmem
    have hceq : c = { Field := "existence", Expected := Value.str "exists",
                      Actual := Value.str t } := by
      simpa [existenceItem] using hmem
    rw [hceq]
    exact ⟨rfl, rfl⟩
  rcases h with ⟨h, ht⟩ | ⟨h, ht⟩ | ⟨h, ht⟩
  · rcases checkEC2Instance_cases h with hitem | ⟨inst, hch⟩
    · rw [hitem] at hc; rw [ht]; exact hex _ hc
    · rw [hch] at hc; exact absurd hf (ec2Changes_no_existence hc)
  · rcases checkSecurityGroup_cases h with hitem | ⟨sg, hch⟩
    · rw [hitem] at hc; rw [ht]; exact hex _ hc
    · rw [hch] at hc; exact absurd hf (sgChanges_no_existence hc)
  · rcases checkS3Bucket_cases h with hitem | ⟨b, v, hch⟩
    · rw [hitem] at hc; rw [ht]; exact hex _ hc
    · rw [hch] at hc; exact absurd hf (s3Changes_no_existence hc)

/-- Witness for C18 amended: the bucket `logs` in an account where it is gone. -/
theorem existence_change_values_witness :
    Value.str "exists" = Value.str "exists" ∧
      Value.str "deleted or inaccessible" = Value.str "deleted or inaccessible" :=
  existence_change_values goneAWS logsBucket
    (existenceItem logsBucket "deleted or inaccessible")
    { Field := "existence", Expected := Value.str "exists",
      Actual := Value.str "deleted or inaccessible" }
    "deleted or inaccessible" (Or.inr (Or.inr ⟨rfl, rfl⟩)) (List.mem_singleton.mpr rfl) rfl

/-! ## Auxiliary lemmas on a detection pass -/

theorem detectorsLoop_eq (state : State) (detectors : List Detector) :
    ∀ allDrifts : List DriftItem,
      detectorsLoop state detectors allDrifts =
        allDrifts ++ detectors.flatMap (detectorDrifts state) := by
  induction detectors with
  | nil => intro allDrifts; simp [detectorsLoop]
  | cons det rest ih =>
    intro allDrifts
    unfold detectorsLoop
    rw [List.flatMap_cons]
    cases hdet : det.Detect state with
    | mk drifts err =>
      cases err with
      | none => simp [ih, detectorDrifts, hdet, List.append_assoc]
      | some e => simp [ih, detectorDrifts, hdet]

theorem detectorsLoop_nil_detectors (state : State) (detectors : List Detector)
    (h : detectors.length = 0) : detectorsLoop state detectors [] = [] := by
  rw [List.length_eq_zero.mp h]
  rfl

theorem runSingleDetection_notified (env : PassEnv) :
    (runSingleDetection env).notified =
      if env.dryRun = false ∧ 0 < (foundDrifts env).length then
        some (sendNotifications env.notifications env.send
          (GenerateReport env.now (foundDrifts env)))
      else none := by
  unfold runSingleDetection foundDrifts
  cases hload : env.loadState with
  | error e => simp
  | ok state =>
    simp only
    by_cases hdet : (initializeDetectors env.providers).length = 0
    · rw [if_pos hdet]
      simp [detectorsLoop_nil_detectors state _ hdet]
    · rw [if_neg hdet]
      by_cases hpos : 0 < (detectorsLoop state (initializeDetectors env.providers) []).length
      · cases hdry : env.dryRun <;> cases hfail : env.failOnDrift <;> simp [hpos]
      · cases hdry : env.dryRun <;> cases hfail : env.failOnDrift <;> simp [hpos]

/-! ## C11 -/

/-- C11: in a single pass `sendNotifications` is called exactly when dry-run is off and
the pass found at least one drift item, and then on the report of the pass; with no drift
item, or in dry-run mode whatever was found, no channel has its `Send` called, whichever
channels are enabled. -/
theorem notifications_sent_iff_drift_and_not_dry_run (env : PassEnv) :
    ((runSingleDetection env).notified.isSome = true ↔
        env.dryRun = false ∧ 0 < (foundDrifts env).length) ∧
      ((runSingleDetection env).notified = none ∨
        (runSingleDetection env).notified =
          some (sendNotifications env.notifications env.send
            (GenerateReport env.now (foundDrifts env)))) ∧
      ((env.dryRun = false ∧ 0 < (foundDrifts env).length) ∨
        ((runSingleDetection env).notified = none ∧
          (runSingleDetection env).sendCalls = [])) := by
  have h := runSingleDetection_notified env
  by_cases hc : env.dryRun = false ∧ 0 < (foundDrifts env).length
  · rw [if_pos hc] at h
    refine ⟨?_, Or.inr h, Or.inl hc⟩
    rw [h]
    simp [hc]
  · rw [if_neg hc] at h
    refine ⟨?_, Or.inl h, Or.inr ⟨h, ?_⟩⟩
    · rw [h]
      simp only [Option.isSome_none, Bool.false_eq_true, false_iff]
      exact hc
    · simp [PassResult.sendCalls, h]

/-! ## C12 -/

/-- C12: whatever the registered detectors and whatever their `Detect` calls return, the
drifts gathered by a pass are the concatenation, in registration order, of the drift items
of the detectors whose `Detect` returned no error (a detector that returned an error adds
nothing and the detectors after it still contribute); `GenerateReport` stores the
sequence it is given unchanged in `Drifts`; so the report of a pass carries exactly that
concatenation. -/
theorem pass_drifts_are_concatenation (env : PassEnv) (state : State)
    (detectors : List Detector) (now : Nat) (drifts : List DriftItem) :
    detectorsLoop state detectors [] = detectors.flatMap (detectorDrifts state) ∧
      (GenerateReport now drifts).Drifts = drifts ∧
      (runSingleDetection env).report =
        (match env.loadState with
         | Except.error _ => none
         | Except.ok st =>
           if (initializeDetectors env.providers).length = 0 then none
           else some (GenerateReport env.now
             ((initializeDetectors env.providers).flatMap (detectorDrifts st)))) := by
  refine ⟨by simp [detectorsLoop_eq], rfl, ?_⟩
  unfold runSingleDetection
  cases hload : env.loadState with
  | error e => rfl
  | ok st =>
    simp only
    by_cases hdet : (initializeDetectors env.providers).length = 0
    · rw [if_pos hdet, if_pos hdet]
    · rw [if_neg hdet, if_neg hdet]
      rw [detectorsLoop_eq, List.nil_append]
      split <;> rfl

/-! ## C14 -/

/-- C14: `runSingleDetection` returns an error exactly when the state load fails, or
`initializeDetectors` yields no detector, or the fail-on-drift flag is set and the pass
found at least one drift item. Neither a detector whose `Detect` fails nor a failing
notification channel enters this condition, and without the flag no found drift is an
error. -/
theorem runSingleDetection_error_iff (env : PassEnv) :
    ((runSingleDetection env).err.isSome = true ↔
        ((∃ e, env.loadState = Except.error e) ∨
          (initializeDetectors env.providers).length = 0 ∨
          (env.failOnDrift = true ∧ 0 < (foundDrifts env).length))) ∧
      (env.failOnDrift = true ∨ (∃ e, env.loadState = Except.error e) ∨
        (initializeDetectors env.providers).length = 0 ∨
        (runSingleDetection env).err = none) := by
  unfold runSingleDetection foundDrifts
  cases hload : env.loadState with
  | error e => simp
  | ok state =>
    simp only
    by_cases hdet : (initializeDetectors env.providers).length = 0
    · rw [if_pos hdet]
      simp [hdet]
    · rw [if_neg hdet]
      by_cases hpos : 0 < (detectorsLoop state (initializeDetectors env.providers) []).length
      · cases hfail : env.failOnDrift <;> simp [hpos, hdet]
      · cases hfail : env.failOnDrift <;> simp [hpos, hdet]

/-- The pass `driftPass` evaluated: the AWS detector reports the instance, the failing
detector adds nothing, both enabled channels are called although the first one fails, and
the pass returns no error. -/
theorem driftPass_outcome :
    (runSingleDetection driftPass).sendCalls = [Channel.slack, Channel.webhook] ∧
      (runSingleDetection driftPass).err = none ∧
      (runSingleDetection driftPass).report.map (fun r => r.Drifts) =
        some [webInstanceDrift] ∧
      (runSingleDetection { driftPass with dryRun := true, failOnDrift := true }).sendCalls
        = [] ∧
      (runSingleDetection { driftPass with dryRun := true, failOnDrift := true }).err =
        some "drift detected in 1 resources" := by
  refine ⟨by rfl, by rfl, by rfl, by rfl, by decide⟩

/-! ## C15 -/

/-- C15, as stated, fails in its last part: when the first pass is over with both a tick
pending and the cancellation signal delivered, the `select` may take the tick, and a new
pass starts although the signal has been delivered. -/
theorem pass_started_after_cancellation_delivered :
    loopRun loopInit
        [LoopEvent.firstPass none, LoopEvent.tick, LoopEvent.cancel,
         LoopEvent.selectTick none] =
      some { phase := LoopPhase.selecting, ctxDone := true, tickPending := false,
             passes := [{ ctxDone := false, err := none }, { ctxDone := true, err := none }],
             result := none } ∧
      lateStarts { phase := LoopPhase.selecting, ctxDone := true, tickPending := false,
                   passes := [{ ctxDone := false, err := none },
                              { ctxDone := true, err := none }],
                   result := none } = 1 := by
  decide

theorem loopRun_append (s : LoopState) (es : List LoopEvent) (e : LoopEvent) :
    loopRun s (es ++ [e]) = (loopRun s es).bind (fun mid => loopStep mid e) := by
  induction es generalizing s with
  | nil =>
    simp only [List.nil_append, loopRun, Option.some_bind]
    cases loopStep s e <;> rfl
  | cons a rest ih =>
    simp only [List.cons_append, loopRun]
    cases loopStep s a with
    | none => rfl
    | some next => exact ih next

theorem loopInvariant_step {es : List LoopEvent} {s next : LoopState} {e : LoopEvent}
    (hinv : LoopInvariant es s) (hstep : loopStep s e = some next) :
    LoopInvariant (es ++ [e]) next := by
  obtain ⟨h1, h2, h3, h4⟩ := hinv
  obtain ⟨phase, ctxDone, tickPending, passes, result⟩ := s
  simp only at h1 h2 h3 h4
  cases e with
  | cancel =>
    simp only [loopStep, Option.some.injEq] at hstep
    subst hstep
    refine ⟨?_, ?_, ?_, ?_⟩
    · simpa [selectTickCount, List.countP_append] using h1
    · simpa [selectTickCount, tickCount, List.countP_append] using h2
    · simpa using h3
    · rcases h4 with ⟨ha, hb, hc⟩ | ⟨ha, hb⟩
      · exact Or.inl ⟨ha, rfl, hc⟩
      · exact Or.inr ⟨ha, hb⟩
  | tick =>
    simp only [loopStep] at hstep
    split at hstep
    · rename_i hret
      simp only [Option.some.injEq] at hstep
      subst hstep
      refine ⟨?_, ?_, ?_, ?_⟩
      · simpa [selectTickCount, List.countP_append] using h1
      · simp only [selectTickCount, tickCount, List.countP_append] at h2 ⊢
        simp only [List.countP_cons, List.countP_nil] at h2 ⊢
        simp at h2 ⊢
        omega
      · simpa using h3
      · exact h4
    · rename_i hret
      simp only [Option.some.injEq] at hstep
      subst hstep
      refine ⟨?_, ?_, ?_, ?_⟩
      · simpa [selectTickCount, List.countP_append] using h1
      · simp only [selectTickCount, tickCount, List.countP_append] at h2 ⊢
        simp at h2 ⊢
        split at h2 <;> omega
      · simpa using h3
      · exact h4
  | firstPass err =>
    simp only [loopStep] at hstep
    split at hstep
    · rename_i hentry
      simp only [Option.some.injEq] at hstep
      subst hstep
      subst hentry
      refine ⟨?_, ?_, ?_, ?_⟩
      · simp [selectTickCount, List.countP_append] at h1 ⊢
        omega
      · simpa [selectTickCount, tickCount, List.countP_append] using h2
      · simp at h3 ⊢
        exact h3
      · rcases h4 with ⟨ha, _, _⟩ | ⟨_, hb⟩
        · cases ha
        · exact Or.inr ⟨by simp, hb⟩
    · cases hstep
  | selectDone =>
    simp only [loopStep] at hstep
    split at hstep
    · rename_i hsel
      simp only [Option.some.injEq] at hstep
      subst hstep
      obtain ⟨hp, hd⟩ := hsel
      subst hp
      refine ⟨?_, ?_, ?_, ?_⟩
      · simpa [selectTickCount, List.countP_append] using h1
      · simpa [selectTickCount, tickCount, List.countP_append] using h2
      · simp
      · exact Or.inl ⟨rfl, hd, rfl⟩
    · cases hstep
  | selectTick err =>
    simp only [loopStep] at hstep
    split at hstep
    · rename_i hsel
      simp only [Option.some.injEq] at hstep
      subst hstep
      obtain ⟨hp, ht⟩ := hsel
      subst hp
      subst ht
      refine ⟨?_, ?_, ?_, ?_⟩
      · simp [selectTickCount, List.countP_append] at h1 ⊢
        omega
      · simp [selectTickCount, tickCount, List.countP_append] at h2 ⊢
        omega
      · simp at h3 ⊢
        exact h3
      · rcases h4 with ⟨ha, _, _⟩ | ⟨_, hb⟩
        · cases ha
        · exact Or.inr ⟨by simp, hb⟩
    · cases hstep

theorem loopInvariant_run (es : List LoopEvent) :
    ∀ s, loopRun loopInit es = some s → LoopInvariant es s := by
  induction es using List.reverseRecOn with
  | nil =>
    intro s h
    simp only [loopRun, Option.some.injEq] at h
    subst h
    simp [LoopInvariant, loopInit, selectTickCount, tickCount]
  | append_singleton es e ih =>
    intro s h
    rw [loopRun_append] at h
    cases hmid : loopRun loopInit es with
    | none => rw [hmid] at h; cases h
    | some mid =>
      rw [hmid] at h
      exact loopInvariant_step (ih mid hmid) h

/-- C15 amended: along every run of `runContinuousDetection`, one pass is run on entry
and one for each tick the `select` takes, at most one per delivered tick, and before the
first pass the `select` is not reached; a pass never makes the function return, whatever
error it yields; the function has returned exactly when the `select` took the
cancellation case, and then the context is cancelled and the returned error is nil; once
it has returned no further pass is started; and a `select` that finds the cancellation
delivered and no tick pending cannot start a pass and returns nil. (A pass can still start
after the signal was delivered: the first pass, and a pass for a tick that is pending
together with the cancellation.) -/
theorem continuous_mode_runs (es : List LoopEvent) (s : LoopState)
    (h : loopRun loopInit es = some s) :
    s.passes.length = (if s.phase = LoopPhase.entry then 0 else 1) + selectTickCount es ∧
      selectTickCount es ≤ tickCount es ∧
      (s.phase ≠ LoopPhase.entry ∨
        (loopStep s LoopEvent.selectDone = none ∧
          ∀ err, loopStep s (LoopEvent.selectTick err) = none ∧
            (loopStep s (LoopEvent.firstPass err)).isSome = true)) ∧
      (∀ err, (loopStep s (LoopEvent.firstPass err)).map (fun n => n.phase) ≠
          some LoopPhase.returned ∧
        (loopStep s (LoopEvent.selectTick err)).map (fun n => n.phase) ≠
          some LoopPhase.returned) ∧
      (s.phase = LoopPhase.returned ↔ LoopEvent.selectDone ∈ es) ∧
      (s.phase = LoopPhase.returned ∧ s.ctxDone = true ∧ s.result = some none ∨
        s.phase ≠ LoopPhase.returned ∧ s.result = none) ∧
      (s.phase ≠ LoopPhase.returned ∨
        ∀ e, loopStep s e = none ∨
          (loopStep s e).map (fun n => (n.passes, n.result)) = some (s.passes, s.result)) ∧
      (¬ (s.phase = LoopPhase.selecting ∧ s.ctxDone = true ∧ s.tickPending = false) ∨
        ((∀ err, loopStep s (LoopEvent.selectTick err) = none) ∧
          (loopStep s LoopEvent.selectDone).map (fun n => (n.phase, n.passes, n.result)) =
            some (LoopPhase.returned, s.passes, some none))) := by
  obtain ⟨h1, h2, h3, h4⟩ := loopInvariant_run es s h
  refine ⟨h1, by omega, ?_, ?_, h3, h4, ?_, ?_⟩
  · by_cases hp : s.phase = LoopPhase.entry
    · right
      simp [loopStep, hp]
    · exact Or.inl hp
  · intro err
    constructor
    · simp only [loopStep]
      split <;> simp
    · simp only [loopStep]
      split
      · rename_i hsel
        simp [hsel.1]
      · simp
  · by_cases hp : s.phase = LoopPhase.returned
    · right
      intro e
      cases e <;> simp [loopStep, hp]
    · exact Or.inl hp
  · by_cases hm : s.phase = LoopPhase.selecting ∧ s.ctxDone = true ∧ s.tickPending = false
    · right
      obtain ⟨hp, hd, ht⟩ := hm
      simp [loopStep, hp, hd, ht]
    · exact Or.inl hm

/-- Witness for C15 amended: `sampleRun`, a run with a failing first pass, one tick and a
cancellation. -/
theorem continuous_mode_runs_witness :
    loopRun loopInit sampleRun = some sampleRunEnd ∧
      sampleRunEnd.passes.length =
        (if sampleRunEnd.phase = LoopPhase.entry then 0 else 1) + selectTickCount sampleRun ∧
      (sampleRunEnd.phase = LoopPhase.returned ↔ LoopEvent.selectDone ∈ sampleRun) :=
  ⟨by decide,
   (continuous_mode_runs sampleRun sampleRunEnd (by decide)).1,
   (continuous_mode_runs sampleRun sampleRunEnd (by decide)).2.2.2.2.1⟩

/-! ## C19 -/

theorem string_foldl_append (l : List String) :
    ∀ a : String, List.foldl (fun r s => r ++ s) a l = a ++ String.join l := by
  induction l with
  | nil => intro a; simp [String.join]
  | cons x rest ih =>
    intro a
    simp only [List.foldl_cons, String.join]
    rw [ih (a ++ x), ih ("" ++ x)]
    simp [String.append_assoc]

theorem string_join_cons (x : String) (l : List String) :
    String.join (x :: l) = x ++ String.join l := by
  simp only [String.join, List.foldl_cons]
  rw [string_foldl_append l ("" ++ x)]
  simp [String.join]

theorem changeLinesLoop_eq (fmtV : Value → String) (changes : List Change) :
    ∀ driftDetails : String,
      changeLinesLoop fmtV changes driftDetails =
        driftDetails ++ String.join (changes.map (renderChange fmtV)) := by
  induction changes with
  | nil => intro driftDetails; simp [changeLinesLoop, String.join]
  | cons c rest ih =>
    intro driftDetails
    simp only [changeLinesLoop, List.map_cons]
    rw [ih, string_join_cons]
    simp only [renderChange, String.append_assoc]

theorem toString_sub_five (n : Nat) (h : 5 ≤ n) :
    toString ((n : Int) - 5) = toString (n - 5) := by
  have hn : (n : Int) - 5 = Int.ofNat (n - 5) := by
    simp only [Int.ofNat_eq_coe]
    omega
  rw [hn]
  rfl

theorem driftDetailsLoop_eq (fmtV : Value → String) (total : Nat) (items : List DriftItem) :
    ∀ (i : Nat) (driftDetails : String), i ≤ 5 → total = i + items.length →
      driftDetailsLoop fmtV total i items driftDetails =
        driftDetails ++ String.join ((items.take (5 - i)).map (renderDrift fmtV)) ++
          (if items.length > 5 - i then moreMarker total else "") := by
  induction items with
  | nil => intro i driftDetails _ _; simp [driftDetailsLoop, String.join]
  | cons d rest ih =>
    intro i driftDetails hi htotal
    unfold driftDetailsLoop
    by_cases h5 : i ≥ 5
    · have hi5 : 5 - i = 0 := by omega
      have ht5 : 5 ≤ total := by omega
      rw [if_pos h5, hi5]
      simp [String.join, moreMarker, toString_sub_five total ht5]
    · have hrest : total = i + 1 + rest.length := by
        simp only [List.length_cons] at htotal
        omega
      rw [if_neg h5, ih (i + 1) _ (by omega) hrest, changeLinesLoop_eq]
      have hstep : 5 - i = (5 - (i + 1)) + 1 := by omega
      rw [hstep, List.take_succ_cons, List.map_cons, string_join_cons]
      have hlen : ((d :: rest).length > 5 - (i + 1) + 1) ↔ (rest.length > 5 - (i + 1)) := by
        simp
      simp only [hlen, renderDrift, String.append_assoc]

/-- C19: for a report of n drift items, the detail text of the Slack message is the
rendering of the first min(n, 5) drift items in report order, each with its heading and
all of its changes, followed by the one marker "... and <n-5> more" when n > 5 and by
nothing when n <= 5; the colour of the attachment is "good" when n = 0 and "danger"
otherwise. -/
theorem buildMessage_detail_and_colour (fmtV : Value → String) (report : Report) :
    (buildMessage fmtV report).detail =
        String.join ((report.Drifts.take (min report.Drifts.length 5)).map (renderDrift fmtV))
          ++ (if report.Drifts.length > 5 then
                "\n... and " ++ toString (report.Drifts.length - 5) ++ " more"
              else "") ∧
      (report.Drifts.take (min report.Drifts.length 5)).length = min report.Drifts.length 5 ∧
      (buildMessage fmtV report).attachments.map (fun a => a.color) =
        [if report.Drifts.length = 0 then "good" else "danger"] := by
  refine ⟨?_, by simp, rfl⟩
  have hloop := driftDetailsLoop_eq fmtV report.Drifts.length report.Drifts 0 ""
    (by omega) (by omega)
  have htake : report.Drifts.take (min report.Drifts.length 5) = report.Drifts.take 5 := by
    rcases Nat.le_total report.Drifts.length 5 with hle | hle
    · rw [Nat.min_eq_left hle, List.take_of_length_le (Nat.le_refl _),
        List.take_of_length_le hle]
    · rw [Nat.min_eq_right hle]
  rw [htake]
  simp only [SlackMessage.detail, buildMessage, List.map_cons, List.map_nil]
  rw [string_join_cons, hloop]
  simp [String.join, moreMarker]

set_option maxRecDepth 8000 in
/-- The Slack message of `sixDriftReport` evaluated: five drift items are rendered, the
sixth is replaced by the marker, the colour is "danger". -/
theorem sixDriftReport_message :
    (buildMessage plainText sixDriftReport).detail =
        "\n• *a* (aws_s3_bucket)\n  - encryption: `enabled` → `disabled`\n" ++
        "\n• *b* (aws_s3_bucket)\n  - encryption: `enabled` → `disabled`\n" ++
        "\n• *c* (aws_s3_bucket)\n  - encryption: `enabled` → `disabled`\n" ++
        "\n• *d* (aws_s3_bucket)\n  - encryption: `enabled` → `disabled`\n" ++
        "\n• *e* (aws_s3_bucket)\n  - encryption: `enabled` → `disabled`\n" ++
        "\n... and 1 more" ∧
      (buildMessage plainText sixDriftReport).attachments.map (fun a => a.color) =
        ["danger"] := by
  constructor
  · decide
  · decide

/-! ## C20 -/

theorem resourcesLoop_eq (resources : List Value) :
    ∀ state : State,
      resourcesLoop resources state =
        { state with
          Resources := state.Resources ++
            resources.filterMap (fun r => r.asMap.map resourceOfMap) } := by
  induction resources with
  | nil => intro state; simp [resourcesLoop]
  | cons r rest ih =>
    intro state
    unfold resourcesLoop
    cases hr : r.asMap with
    | none => simp [ih, hr]
    | some m => simp [ih, hr, List.append_assoc]

theorem instancesLoop_names (instances : List Value) :
    ∀ resource : Resource,
      (instancesLoop instances resource).Type_ = resource.Type_ ∧
        (instancesLoop instances resource).Name = resource.Name := by
  induction instances with
  | nil => intro resource; exact ⟨rfl, rfl⟩
  | cons inst rest ih =>
    intro resource
    unfold instancesLoop
    split
    · exact ih resource
    · split
      · exact ih _
      · exact ih resource

theorem resourceOfMap_type (resourceMap : List (String × Value)) :
    (resourceOfMap resourceMap).Type_ = getString resourceMap "type" := by
  unfold resourceOfMap
  simp only
  split
  · split
    · exact (instancesLoop_names _ _).1
    · rfl
  · rfl

/-- C20, as stated, fails for an entry that is an object without a string `type` field:
it is not dropped, `LoadState` appends it with the empty type. Of the three entries of
`looseDocument` only the one that is not an object is dropped, and the load succeeds. -/
theorem entry_without_type_is_kept :
    (LoadState (Except.ok "state bytes") (fun _ => Except.ok looseDocument)).toOption.map
        (fun state => state.Resources.map (fun r => (r.Type_, r.Name))) =
      some [("", "orphan"), ("aws_s3_bucket", "logs")] ∧
      ¬ (∀ r ∈ (loadParsed looseDocument).Resources, r.Type_ ≠ "") := by
  constructor
  · decide
  · intro h
    have hmem : resourceOfMap [("name", Value.str "orphan")] ∈
        (loadParsed looseDocument).Resources := by
      simp [loadParsed, looseDocument, mapIndex, resourcesLoop_eq, Value.asMap]
    exact h _ hmem rfl

/-- C20 amended: for every parsed state document the load succeeds; an entry of the
`resources` array that is not an object is dropped rather than appended, and every entry
that is an object is appended, in order; the type of a loaded resource is the string under
`type` of its entry, and the empty string when the entry has no string `type` field, so
such an entry is kept with an empty type; a resource with an empty type contributes
nothing to `AWSDetector.Detect`. -/
theorem LoadState_keeps_every_object_entry (data : String)
    (unmarshal : String → Except String (List (String × Value)))
    (rawState : List (String × Value)) (h : unmarshal data = Except.ok rawState) :
    LoadState (Except.ok data) unmarshal = Except.ok (loadParsed rawState) ∧
      (loadParsed rawState).Resources =
        ((mapIndex rawState "resources").asSlice).filterMap
          (fun r => r.asMap.map resourceOfMap) ∧
      (loadParsed rawState).Resources.map (fun r => r.Type_) =
        (((mapIndex rawState "resources").asSlice).filterMap Value.asMap).map
          (fun m => getString m "type") ∧
      (∀ (d : AWSDetector) (r : Resource), r.Type_ ≠ "" ∨ resourceDrifts d r = []) := by
  have hres : (loadParsed rawState).Resources =
      ((mapIndex rawState "resources").asSlice).filterMap
        (fun r => r.asMap.map resourceOfMap) := by
    unfold loadParsed
    simp only
    have hv : (match mapIndex rawState "version" with
        | Value.float version => ({ Version := floatToInt version, Resources := [] } : State)
        | _ => { Version := 0, Resources := [] }).Resources = [] := by
      split <;> rfl
    cases hr : mapIndex rawState "resources" with
    | list resources =>
      simp only [resourcesLoop_eq, Value.asSlice]
      rw [hv, List.nil_append]
    | null => exact hv
    | str x => exact hv
    | int x => exact hv
    | float x => exact hv
    | bool x => exact hv
    | map x => exact hv
  refine ⟨by simp [LoadState, h], hres, ?_, ?_⟩
  · rw [hres]
    generalize (mapIndex rawState "resources").asSlice = entries
    induction entries with
    | nil => rfl
    | cons e rest ih =>
      cases he : e.asMap with
      | none => simpa [List.filterMap_cons, he] using ih
      | some m => simpa [List.filterMap_cons, he, resourceOfMap_type] using ih
  · intro d r
    by_cases ht : r.Type_ = ""
    · right
      unfold resourceDrifts
      rw [if_neg]
      rw [ht]
      decide
    · exact Or.inl ht

/-- Witness for C20 amended: `looseDocument`. -/
theorem LoadState_keeps_every_object_entry_witness :
    LoadState (Except.ok "state bytes") (fun _ => Except.ok looseDocument) =
        Except.ok (loadParsed looseDocument) ∧
      (loadParsed looseDocument).Resources.map (fun r => r.Type_) =
        (((mapIndex looseDocument "resources").asSlice).filterMap Value.asMap).map
          (fun m => getString m "type") :=
  ⟨(LoadState_keeps_every_object_entry "state bytes" (fun _ => Except.ok looseDocument)
      looseDocument rfl).1,
   (LoadState_keeps_every_object_entry "state bytes" (fun _ => Except.ok looseDocument)
      looseDocument rfl).2.2.1⟩

/-! ## C16 -/

mutual
theorem toValue_toJson : ∀ v : Value, Json.toValue (Value.toJson v) = Value.afterRoundTrip v
  | Value.null => rfl
  | Value.str _ => rfl
  | Value.int _ => rfl
  | Value.float _ => rfl
  | Value.bool _ => rfl
  | Value.map kvs => by
    simp only [Value.toJson, Json.toValue, Value.afterRoundTrip]
    rw [membersToValue_toJson kvs]
  | Value.list vs => by
    simp only [Value.toJson, Json.toValue, Value.afterRoundTrip]
    rw [itemsToValue_toJson vs]
theorem membersToValue_toJson : ∀ kvs : List (String × Value),
    Json.membersToValue (Value.membersToJson kvs) = Value.membersAfterRoundTrip kvs
  | [] => rfl
  | (k, v) :: rest => by
    simp only [Value.membersToJson, Json.membersToValue, Value.membersAfterRoundTrip]
    rw [toValue_toJson v, membersToValue_toJson rest]
theorem itemsToValue_toJson : ∀ vs : List Value,
    Json.itemsToValue (Value.itemsToJson vs) = Value.itemsAfterRoundTrip vs
  | [] => rfl
  | v :: rest => by
    simp only [Value.itemsToJson, Json.itemsToValue, Value.itemsAfterRoundTrip]
    rw [toValue_toJson v, itemsToValue_toJson rest]
end

mutual
theorem afterRoundTrip_intFree : ∀ v : Value, v.intFree = true → v.afterRoundTrip = v
  | Value.null, _ => rfl
  | Value.str _, _ => rfl
  | Value.int _, h => by simp [Value.intFree] at h
  | Value.float _, _ => rfl
  | Value.bool _, _ => rfl
  | Value.map kvs, h => by
    simp only [Value.intFree] at h
    simp only [Value.afterRoundTrip]
    rw [membersAfterRoundTrip_intFree kvs h]
  | Value.list vs, h => by
    simp only [Value.intFree] at h
    simp only [Value.afterRoundTrip]
    rw [itemsAfterRoundTrip_intFree vs h]
theorem membersAfterRoundTrip_intFree : ∀ kvs : List (String × Value),
    Value.membersIntFree kvs = true → Value.membersAfterRoundTrip kvs = kvs
  | [], _ => rfl
  | (k, v) :: rest, h => by
    simp only [Value.membersIntFree, Bool.and_eq_true] at h
    simp only [Value.membersAfterRoundTrip]
    rw [afterRoundTrip_intFree v h.1, membersAfterRoundTrip_intFree rest h.2]
theorem itemsAfterRoundTrip_intFree : ∀ vs : List Value,
    Value.itemsIntFree vs = true → Value.itemsAfterRoundTrip vs = vs
  | [], _ => rfl
  | v :: rest, h => by
    simp only [Value.itemsIntFree, Bool.and_eq_true] at h
    simp only [Value.itemsAfterRoundTrip]
    rw [afterRoundTrip_intFree v h.1, itemsAfterRoundTrip_intFree rest h.2]
end

theorem change_round_trip (c : Change) :
    Change.ofJson (Change.toJson c) = some c.afterRoundTrip := by
  simp [Change.ofJson, Change.toJson, Json.member, Json.asString, toValue_toJson,
    Change.afterRoundTrip]

theorem changes_round_trip (changes : List Change) :
    itemsOfJson Change.ofJson (changes.map Change.toJson) =
      some (changes.map Change.afterRoundTrip) := by
  induction changes with
  | nil => rfl
  | cons c rest ih => simp [itemsOfJson, change_round_trip, ih]

theorem change_slice_round_trip (changes : List Change) :
    sliceOfJson Change.ofJson (sliceToJson Change.toJson changes) =
      some (changes.map Change.afterRoundTrip) := by
  cases changes with
  | nil => rfl
  | cons c rest =>
    simp only [sliceToJson, sliceOfJson]
    exact changes_round_trip (c :: rest)

theorem driftItem_round_trip (d : DriftItem) :
    DriftItem.ofJson (DriftItem.toJson d) = some d.afterRoundTrip := by
  by_cases hid : d.ResourceID = ""
  · simp [DriftItem.ofJson, DriftItem.toJson, Json.member, Json.asString, hid,
      change_slice_round_trip, DriftItem.afterRoundTrip]
  · simp [DriftItem.ofJson, DriftItem.toJson, Json.member, Json.asString, hid,
      change_slice_round_trip, DriftItem.afterRoundTrip]

theorem driftItems_round_trip (drifts : List DriftItem) :
    itemsOfJson DriftItem.ofJson (drifts.map DriftItem.toJson) =
      some (drifts.map DriftItem.afterRoundTrip) := by
  induction drifts with
  | nil => rfl
  | cons d rest ih => simp [itemsOfJson, driftItem_round_trip, ih]

theorem driftItem_slice_round_trip (drifts : List DriftItem) :
    sliceOfJson DriftItem.ofJson (sliceToJson DriftItem.toJson drifts) =
      some (drifts.map DriftItem.afterRoundTrip) := by
  cases drifts with
  | nil => rfl
  | cons d rest =>
    simp only [sliceToJson, sliceOfJson]
    exact driftItems_round_trip (d :: rest)

theorem change_afterRoundTrip_intFree (c : Change)
    (h : (c.Expected.intFree && c.Actual.intFree) = true) : c.afterRoundTrip = c := by
  simp only [Bool.and_eq_true] at h
  obtain ⟨field, expected, actual⟩ := c
  simp only [Change.afterRoundTrip, afterRoundTrip_intFree expected h.1,
    afterRoundTrip_intFree actual h.2]

theorem changes_afterRoundTrip_intFree (changes : List Change)
    (h : changes.all (fun c => c.Expected.intFree && c.Actual.intFree) = true) :
    changes.map Change.afterRoundTrip = changes := by
  induction changes with
  | nil => rfl
  | cons c rest ih =>
    simp only [List.all_cons, Bool.and_eq_true] at h
    rw [List.map_cons, change_afterRoundTrip_intFree c (by simp [h.1]),
      ih (by simpa using h.2)]

theorem report_afterRoundTrip_intFree (r : Report) (h : r.intFree = true) :
    r.afterRoundTrip = r := by
  obtain ⟨timestamp, total, drifts, summary⟩ := r
  simp only [Report.intFree] at h
  simp only [Report.afterRoundTrip]
  congr 1
  induction drifts with
  | nil => rfl
  | cons d rest ih =>
    simp only [List.all_cons, Bool.and_eq_true] at h
    obtain ⟨rt, rn, rid, prov, sev, changes⟩ := d
    rw [List.map_cons, ih h.2]
    simp only [DriftItem.afterRoundTrip, changes_afterRoundTrip_intFree changes h.1]

/-- C16, as stated, fails for a report that holds a rule-count change of
`checkSecurityGroup`: the counts are Go `int` values, they are written as JSON numbers and
read back as `float64`, so the expected and actual values of the report read back differ
from the original ones. -/
theorem rule_count_changes_do_not_round_trip :
    edgeGroupReport.Drifts.map (fun d => d.Changes.map (fun c => (c.Expected, c.Actual))) =
        [[(Value.int 1, Value.int 2), (Value.int 0, Value.int 1)]] ∧
      (Report.ofJson countStrokes (Report.toJson strokes edgeGroupReport)).map
          (fun r => r.Drifts.map (fun d => d.Changes.map (fun c => (c.Expected, c.Actual)))) =
        some [[(Value.float 1, Value.float 2), (Value.float 0, Value.float 1)]] ∧
      Report.ofJson countStrokes (Report.toJson strokes edgeGroupReport) ≠
        some edgeGroupReport := by
  have h1 : edgeGroupReport.Drifts.map
      (fun d => d.Changes.map (fun c => (c.Expected, c.Actual))) =
      [[(Value.int 1, Value.int 2), (Value.int 0, Value.int 1)]] := by rfl
  have h2 : (Report.ofJson countStrokes (Report.toJson strokes edgeGroupReport)).map
      (fun r => r.Drifts.map (fun d => d.Changes.map (fun c => (c.Expected, c.Actual)))) =
      some [[(Value.float 1, Value.float 2), (Value.float 0, Value.float 1)]] := by rfl
  refine ⟨h1, h2, ?_⟩
  intro heq
  rw [heq, Option.map_some', h1] at h2
  simp at h2

/-- C16 amended: serialising a report to the JSON wire format and parsing the result back
yields the report with every field equal to the original one, an empty `resource_id` and
an empty list of drifts included, except that an expected or actual value of a change that
is a Go `int` (the rule counts of `checkSecurityGroup`) comes back as the `float64` of the
same number; a report none of whose changes holds a Go `int` comes back equal to the
original. -/
theorem report_round_trip_up_to_int (formatTime : Nat → String)
    (parseTime : String → Option Nat) (r : Report)
    (htime : ∀ t, parseTime (formatTime t) = some t) :
    Report.ofJson parseTime (Report.toJson formatTime r) = some r.afterRoundTrip ∧
      (r.intFree = false ∨
        Report.ofJson parseTime (Report.toJson formatTime r) = some r) ∧
      r.afterRoundTrip.Timestamp = r.Timestamp ∧
      r.afterRoundTrip.TotalResources = r.TotalResources ∧
      r.afterRoundTrip.Summary = r.Summary ∧
      r.afterRoundTrip.Drifts.map
          (fun d => (d.ResourceType, d.ResourceName, d.ResourceID, d.Provider, d.Severity,
            d.Changes.map (fun c => c.Field))) =
        r.Drifts.map
          (fun d => (d.ResourceType, d.ResourceName, d.ResourceID, d.Provider, d.Severity,
            d.Changes.map (fun c => c.Field))) := by
  have hrt : Report.ofJson parseTime (Report.toJson formatTime r) = some r.afterRoundTrip := by
    simp [Report.ofJson, Report.toJson, Json.member, Json.asString, Json.asInt, htime,
      driftItem_slice_round_trip, Report.afterRoundTrip]
  refine ⟨hrt, ?_, rfl, rfl, rfl, ?_⟩
  · cases hfree : r.intFree with
    | false => exact Or.inl rfl
    | true =>
      right
      rw [hrt, report_afterRoundTrip_intFree r hfree]
  · simp [Report.afterRoundTrip, DriftItem.afterRoundTrip, Change.afterRoundTrip,
      Function.comp_def]

/-- Witness for C16 amended: the report of the pass over the instance `web`, whose change
holds strings only, with strokes standing for the text of the time. -/
theorem report_round_trip_up_to_int_witness :
    (∀ t, countStrokes (strokes t) = some t) ∧
      Report.ofJson countStrokes
          (Report.toJson strokes (GenerateReport 3 [webInstanceDrift])) =
        some (GenerateReport 3 [webInstanceDrift]).afterRoundTrip ∧
      ((GenerateReport 3 [webInstanceDrift]).intFree = false ∨
        Report.ofJson countStrokes
            (Report.toJson strokes (GenerateReport 3 [webInstanceDrift])) =
          some (GenerateReport 3 [webInstanceDrift])) :=
  ⟨fun t => by simp [countStrokes, strokes],
   (report_round_trip_up_to_int strokes countStrokes (GenerateReport 3 [webInstanceDrift])
      (fun t => by simp [countStrokes, strokes])).1,
   (report_round_trip_up_to_int strokes countStrokes (GenerateReport 3 [webInstanceDrift])
      (fun t => by simp [countStrokes, strokes])).2.1⟩

/-! ## C21 -/

/-- C21: for every list of drift items, the report `GenerateReport` returns has
`TotalResources` equal to the number of drift items plus the baseline 100, whatever the
clock reads and whatever the items are. -/
theorem GenerateReport_total_resources (now : Nat) (drifts : List DriftItem) :
    (GenerateReport now drifts).TotalResources = (drifts.length : Int) + 100 ∧
      (GenerateReport now []).TotalResources = 100 ∧
      (∀ d : DriftItem,
        (GenerateReport now (drifts ++ [d])).TotalResources =
          (GenerateReport now drifts).TotalResources + 1) := by
  refine ⟨rfl, rfl, ?_⟩
  intro d
  simp only [GenerateReport, List.length_append, List.length_singleton]
  push_cast
  omega

/-! ## C22 -/

theorem gcpDetectLoop_unchanged (d : GCPDetector) (resources : List Resource) :
    ∀ drifts : List DriftItem, GCPDetector.detectLoop d resources drifts = drifts := by
  induction resources with
  | nil => intro drifts; rfl
  | cons r rest ih =>
    intro drifts
    unfold GCPDetector.detectLoop
    split
    · exact ih drifts
    · split
      · rw [ih]; rfl
      · split
        · rw [ih]; rfl
        · exact ih drifts

theorem azureDetectLoop_unchanged (d : AzureDetector) (resources : List Resource) :
    ∀ drifts : List DriftItem, AzureDetector.detectLoop d resources drifts = drifts := by
  induction resources with
  | nil => intro drifts; rfl
  | cons r rest ih =>
    intro drifts
    unfold AzureDetector.detectLoop
    split
    · exact ih drifts
    · split
      · rw [ih]; rfl
      · split
        · rw [ih]; rfl
        · exact ih drifts

/-- C22: for every state, `GCPDetector.Detect` and `AzureDetector.Detect` return the empty
list of drift items and no error, also for a state that declares
`google_compute_instance`, `google_storage_bucket`, `azurerm_virtual_machine` and
`azurerm_storage_account` resources; as registered detectors they contribute nothing to
the drifts of a pass. -/
theorem gcp_and_azure_detect_report_nothing (gcp : GCPDetector) (azure : AzureDetector)
    (state : State) :
    GCPDetector.Detect gcp state = ([], none) ∧
      AzureDetector.Detect azure state = ([], none) ∧
      GCPDetector.Detect gcp multiCloudState = ([], none) ∧
      AzureDetector.Detect azure multiCloudState = ([], none) ∧
      detectorDrifts state gcp.toDetector = [] ∧
      detectorDrifts state azure.toDetector = [] := by
  have hg : ∀ st : State, GCPDetector.Detect gcp st = ([], none) := by
    intro st
    simp [GCPDetector.Detect, gcpDetectLoop_unchanged]
  have ha : ∀ st : State, AzureDetector.Detect azure st = ([], none) := by
    intro st
    simp [AzureDetector.Detect, azureDetectLoop_unchanged]
  refine ⟨hg state, ha state, hg _, ha _, ?_, ?_⟩
  · simp [detectorDrifts, GCPDetector.toDetector, hg]
  · simp [detectorDrifts, AzureDetector.toDetector, ha]

/-- The checks behind the two detectors are reached: the four types pass the type filters
of their detectors, so the empty results come from the checks returning no item, not from
the filters. -/
theorem gcp_and_azure_types_pass_the_filters :
    isGCPResource "google_compute_instance" = true ∧
      isGCPResource "google_storage_bucket" = true ∧
      isAzureResource "azurerm_virtual_machine" = true ∧
      isAzureResource "azurerm_storage_account" = true ∧
      isGCPResource "aws_instance" = false ∧
      isAzureResource "google_compute_instance" = false := by
  decide

/-! ## C4, amended statement -/

theorem severity_of_item_with_existence {d : AWSDetector} {resource : Resource}
    {item : DriftItem} {x : Change}
    (hitem : checkEC2Instance d resource = Except.ok (some item) ∨
      checkS3Bucket d resource = Except.ok (some item) ∨
      checkSecurityGroup d resource = Except.ok (some item))
    (hx : x ∈ item.Changes) (hf : x.Field = "existence") : item.Severity = "critical" := by
  rcases hitem with h | h | h
  · rcases checkEC2Instance_cases h with hitem | ⟨inst, hch⟩
    · rw [hitem]; rfl
    · rw [hch] at hx; exact absurd hf (ec2Changes_no_existence hx)
  · rcases checkS3Bucket_cases h with hitem | ⟨b, v, hch⟩
    · rw [hitem]; rfl
    · rw [hch] at hx; exact absurd hf (s3Changes_no_existence hx)
  · rcases checkSecurityGroup_cases h with hitem | ⟨sg, hch⟩
    · rw [hitem]; rfl
    · rw [hch] at hx; exact absurd hf (sgChanges_no_existence hx)

/-- C4 amended: for every list of changes that holds an `existence` change with no
`encryption` or `public_access` change before it, `determineSeverity` returns `critical`;
and every drift item returned by an AWS check that holds an `existence` change has the
severity `critical` (the checks set it themselves, the lists they pass to
`determineSeverity` hold no `existence` change). -/
theorem determineSeverity_existence_not_preceded (before after : List Change) (c : Change)
    (d : AWSDetector) (resource : Resource) (item : DriftItem) (x : Change)
    (hc : c.Field = "existence")
    (hbefore : ∀ b ∈ before, b.Field ≠ "encryption" ∧ b.Field ≠ "public_access")
    (hitem : checkEC2Instance d resource = Except.ok (some item) ∨
      checkS3Bucket d resource = Except.ok (some item) ∨
      checkSecurityGroup d resource = Except.ok (some item))
    (hx : x ∈ item.Changes) (hf : x.Field = "existence") :
    determineSeverity (before ++ c :: after) = "critical" ∧ item.Severity = "critical" := by
  refine ⟨?_, severity_of_item_with_existence hitem hx hf⟩
  induction before with
  | nil =>
    simp only [List.nil_append]
    unfold determineSeverity
    rw [if_pos hc]
  | cons b rest ih =>
    have hb := hbefore b (List.mem_cons_self _ _)
    have hrest : ∀ y ∈ rest, y.Field ≠ "encryption" ∧ y.Field ≠ "public_access" :=
      fun y hy => hbefore y (List.mem_cons_of_mem _ hy)
    simp only [List.cons_append]
    unfold determineSeverity
    by_cases he : b.Field = "existence"
    · rw [if_pos he]
    · rw [if_neg he, if_neg (by rintro (h | h); exact hb.1 h; exact hb.2 h)]
      exact ih hrest

/-- Witness for C4 amended: an `existence` change after a `versioning` change and before
an `encryption` change; and the existence item of the security group `edge`. -/
theorem determineSeverity_existence_not_preceded_witness :
    determineSeverity
        ([{ Field := "versioning", Expected := Value.str "Enabled",
            Actual := Value.str "Suspended" }] ++
          { Field := "existence", Expected := Value.str "exists",
            Actual := Value.str "deleted" } ::
          [{ Field := "encryption", Expected := Value.str "enabled",
             Actual := Value.str "disabled" }]) = "critical" ∧
      (existenceItem edgeGroup "deleted").Severity = "critical" :=
  determineSeverity_existence_not_preceded
    [{ Field := "versioning", Expected := Value.str "Enabled", Actual := Value.str "Suspended" }]
    [{ Field := "encryption", Expected := Value.str "enabled", Actual := Value.str "disabled" }]
    { Field := "existence", Expected := Value.str "exists", Actual := Value.str "deleted" }
    goneAWS edgeGroup (existenceItem edgeGroup "deleted")
    { Field := "existence", Expected := Value.str "exists", Actual := Value.str "deleted" }
    rfl (by simp) (Or.inr (Or.inr rfl)) (List.mem_singleton.mpr rfl) rfl

/-! ## C5, amended statement -/

theorem severity_of_no_existence (changes : List Change)
    (h : ∀ c ∈ changes, c.Field ≠ "existence") :
    determineSeverity changes =
      if ∃ c ∈ changes, c.Field = "encryption" ∨ c.Field = "public_access" then "high"
      else "medium" := by
  induction changes with
  | nil => simp [determineSeverity]
  | cons c rest ih =>
    have hc : c.Field ≠ "existence" := h c (List.mem_cons_self _ _)
    have hrest : ∀ x ∈ rest, x.Field ≠ "existence" :=
      fun x hx => h x (List.mem_cons_of_mem _ hx)
    unfold determineSeverity
    rw [if_neg hc]
    by_cases he : c.Field = "encryption" ∨ c.Field = "public_access"
    · rw [if_pos he, if_pos ⟨c, List.mem_cons_self _ _, he⟩]
    · rw [if_neg he, ih hrest]
      by_cases hr : ∃ x ∈ rest, x.Field = "encryption" ∨ x.Field = "public_access"
      · obtain ⟨x, hx, hxe⟩ := hr
        rw [if_pos ⟨x, hx, hxe⟩, if_pos ⟨x, List.mem_cons_of_mem _ hx, hxe⟩]
      · rw [if_neg hr, if_neg]
        rintro ⟨x, hx, hxe⟩
        rcases List.mem_cons.mp hx with hx | hx
        · subst hx; exact he hxe
        · exact hr ⟨x, hx, hxe⟩

theorem severity_of_no_encryption (changes : List Change)
    (h : ∀ c ∈ changes, c.Field ≠ "encryption" ∧ c.Field ≠ "public_access") :
    determineSeverity changes =
      if ∃ c ∈ changes, c.Field = "existence" then "critical" else "medium" := by
  induction changes with
  | nil => simp [determineSeverity]
  | cons c rest ih =>
    have hc := h c (List.mem_cons_self _ _)
    have hrest : ∀ x ∈ rest, x.Field ≠ "encryption" ∧ x.Field ≠ "public_access" :=
      fun x hx => h x (List.mem_cons_of_mem _ hx)
    unfold determineSeverity
    by_cases he : c.Field = "existence"
    · rw [if_pos he, if_pos ⟨c, List.mem_cons_self _ _, he⟩]
    · rw [if_neg he, if_neg (by rintro (h1 | h1); exact hc.1 h1; exact hc.2 h1), ih hrest]
      by_cases hr : ∃ x ∈ rest, x.Field = "existence"
      · obtain ⟨x, hx, hxe⟩ := hr
        rw [if_pos ⟨x, hx, hxe⟩, if_pos ⟨x, List.mem_cons_of_mem _ hx, hxe⟩]
      · rw [if_neg hr, if_neg]
        rintro ⟨x, hx, hxe⟩
        rcases List.mem_cons.mp hx with hx | hx
        · subst hx; exact he hxe
        · exact hr ⟨x, hx, hxe⟩

theorem severity_perm_of_no_existence {first second : List Change}
    (hperm : first.Perm second) (h : ∀ c ∈ first, c.Field ≠ "existence") :
    determineSeverity first = determineSeverity second := by
  have h2 : ∀ c ∈ second, c.Field ≠ "existence" := fun c hc => h c (hperm.mem_iff.mpr hc)
  rw [severity_of_no_existence first h, severity_of_no_existence second h2]
  by_cases hp : ∃ c ∈ first, c.Field = "encryption" ∨ c.Field = "public_access"
  · obtain ⟨c, hc, hce⟩ := hp
    rw [if_pos ⟨c, hc, hce⟩, if_pos ⟨c, hperm.mem_iff.mp hc, hce⟩]
  · rw [if_neg hp, if_neg]
    rintro ⟨c, hc, hce⟩
    exact hp ⟨c, hperm.mem_iff.mpr hc, hce⟩

/-- C5 amended: `determineSeverity` gives the same severity to two lists of changes that
are permutations of each other whenever the list does not hold both an `existence` change
and an `encryption` or `public_access` change; this covers every list the AWS checks pass
to it, the list `changes` of `checkEC2Instance` and that of `checkS3Bucket`. -/
theorem determineSeverity_order_independent (first second : List Change)
    (hperm : first.Perm second)
    (h : (∀ c ∈ first, c.Field ≠ "existence") ∨
      (∀ c ∈ first, c.Field ≠ "encryption" ∧ c.Field ≠ "public_access") ∨
      (∃ resource inst, first = ec2Changes resource inst) ∨
      (∃ d resource bucketName versioning,
        first = s3Changes d resource bucketName versioning)) :
    determineSeverity first = determineSeverity second := by
  rcases h with h | h | ⟨resource, inst, h⟩ | ⟨d, resource, bucketName, versioning, h⟩
  · exact severity_perm_of_no_existence hperm h
  · have h2 : ∀ c ∈ second, c.Field ≠ "encryption" ∧ c.Field ≠ "public_access" :=
      fun c hc => h c (hperm.mem_iff.mpr hc)
    rw [severity_of_no_encryption first h, severity_of_no_encryption second h2]
    by_cases hp : ∃ c ∈ first, c.Field = "existence"
    · obtain ⟨c, hc, hce⟩ := hp
      rw [if_pos ⟨c, hc, hce⟩, if_pos ⟨c, hperm.mem_iff.mp hc, hce⟩]
    · rw [if_neg hp, if_neg]
      rintro ⟨c, hc, hce⟩
      exact hp ⟨c, hperm.mem_iff.mpr hc, hce⟩
  · exact severity_perm_of_no_existence hperm
      (fun c hc => ec2Changes_no_existence (h ▸ hc))
  · exact severity_perm_of_no_existence hperm
      (fun c hc => s3Changes_no_existence (h ▸ hc))

/-- Witness for C5 amended: a `versioning` and an `encryption` change in both orders. -/
theorem determineSeverity_order_independent_witness :
    determineSeverity
        [{ Field := "versioning", Expected := Value.str "Enabled",
           Actual := Value.str "Suspended" },
         { Field := "encryption", Expected := Value.str "enabled",
           Actual := Value.str "disabled" }] =
      determineSeverity
        [{ Field := "encryption", Expected := Value.str "enabled",
           Actual := Value.str "disabled" },
         { Field := "versioning", Expected := Value.str "Enabled",
           Actual := Value.str "Suspended" }] :=
  determineSeverity_order_independent _ _ (List.Perm.swap _ _ _) (Or.inl (by simp))

end DriftDetector
